import Mathlib

/-!
# FRVT face pipeline: crop geometry, landmark mapping, flip gate, descriptor fusion, TPR

A shallow embedding of the geometric and numerical code around the neural inference calls of

* `src/11/src/algo/DnetLandmarksDetector.cpp` (square crop with border handling, landmark
  mapping, flip-consistency gate),
* `src/11/src/algo/SphereFaceRecognizer.cpp` (recognition crop window, dual-pass fusion),
* `src/11/src/fatest/fatest.cpp` (`CalculateTPR`).

## Modelling conventions

* `int` is `Int`; signed overflow is undefined behaviour in C++ and is not modelled.
* A finite `double` is modelled by the rational it denotes, and every arithmetic operation on
  doubles is the exact operation followed by rounding to the nearest binary64 value
  (`roundDouble`, `divDouble`, `sqrtDouble`).  Infinities and NaN are `none`.
* The `float` computations of `AdjustLandmarks` and the coordinate arithmetic with the
  constants `0.5` and `0.75` are modelled by exact rational arithmetic; the latter is exact in
  `double` for operands of type `int`.
* `std::vector<T>` is `List T`.  Reading past the end is undefined behaviour in C++; where the
  embedding has to produce a value it reads `0` there (`List.getD`), and `CalculateTPR`, whose
  index is computed from its input, returns `none` instead.
* OpenCV pixel operations and the TensorFlow engine are external: they are fields of `CvOps`
  and a function `Mat → List ℚ` over an arbitrary matrix type `Mat`.
* The number of engine invocations is threaded through the detector as an explicit counter.
-/

set_option linter.dupNamespace false

namespace FRVT_11

/-! ## Conversions between floating-point and integer values -/

/-- The C++ conversion `int(x)` of a floating-point value: truncation toward zero. -/
def truncToInt (q : ℚ) : Int :=
  if 0 ≤ q then ⌊q⌋ else ⌈q⌉

/-- The C function `round`: nearest integral value, halfway cases away from zero. -/
def cRound (q : ℚ) : ℚ :=
  if 0 ≤ q then ((⌊q + 1 / 2⌋ : Int) : ℚ) else ((⌈q - 1 / 2⌉ : Int) : ℚ)

/-! ## binary64 arithmetic

A finite `double` is modelled by the rational it denotes.  An operation of the source on
doubles is the exact operation followed by `roundDouble`.  Infinities and NaN are not
rationals: a division by zero yields `none`, and a value beyond the largest finite double is
kept as the rational that unbounded-exponent rounding gives. -/

/-- The exponent of the binade of a non-zero double-ranged magnitude `x`: `floor(log2 x)`,
and `-1022` throughout the subnormal range. -/
def binade (x : ℚ) : Int :=
  max (Int.log 2 x) (-1022)

/-- The spacing of the doubles in the binade of `x` (53 significand bits). -/
def quantum (x : ℚ) : ℚ :=
  (2 : ℚ) ^ (binade x - 52)

/-- Rounding to the nearest integer, ties to the even one. -/
def roundHalfEven (m : ℚ) : Int :=
  if m - (⌊m⌋ : ℚ) < 1 / 2 then ⌊m⌋
  else if 1 / 2 < m - (⌊m⌋ : ℚ) then ⌊m⌋ + 1
  else if ⌊m⌋ % 2 = 0 then ⌊m⌋
  else ⌊m⌋ + 1

/-- The binary64 value nearest to `x`, ties to even (the IEEE 754 default rounding). -/
def roundDouble (x : ℚ) : ℚ :=
  if 0 ≤ x then (roundHalfEven (x / quantum x) : ℚ) * quantum x
  else -((roundHalfEven (-x / quantum (-x)) : ℚ) * quantum (-x))

/-- Division of two doubles; `none` for a zero divisor (the result is infinite or NaN). -/
def divDouble (a b : ℚ) : Option ℚ :=
  if b = 0 then none else some (roundDouble (a / b))

/-- The integer nearest to the square root of `a ≥ 0`, ties to even: with `n` the integer
square root of `floor a`, it is `n` or `n + 1` according to the side of `(n + 1/2)^2` on
which `a` lies. -/
def roundSqrt (a : ℚ) : Nat :=
  let n : Nat := Nat.sqrt ⌊a⌋₊
  if a < ((n : ℚ) + 1 / 2) ^ 2 then n
  else if ((n : ℚ) + 1 / 2) ^ 2 < a then n + 1
  else if n % 2 = 0 then n
  else n + 1

/-- The function `std::sqrt` on a double `s`: the double nearest to the square root.  With
`2^k ≤ sqrt s < 2^(k+1)` and the spacing `q = 2^(k-52)` of that binade, the result is the
multiple of `q` nearest to `sqrt s`, that is `q` times the integer nearest to
`sqrt (s / q^2)`.  A negative `s` gives NaN (`none`). -/
def sqrtDouble (s : ℚ) : Option ℚ :=
  if s < 0 then none
  else if s = 0 then some 0
  else
    let k : Int := Int.log 2 s / 2
    let q : ℚ := (2 : ℚ) ^ (k - 52)
    some ((roundSqrt (s / (q * q)) : ℚ) * q)

/-! ## Rect -/

/-- Modelled from the spec: `Rect.h` is not among the sources.  A `Rect` is an axis-aligned
box `(x1, y1, x2, y2)` with a detection score; the coordinates are integers, and the
constructor used in the sources takes them in this order. -/
structure Rect where
  x1 : Int
  y1 : Int
  x2 : Int
  y2 : Int
  score : ℚ
deriving DecidableEq, Repr

/-- Modelled from the spec: the index access `rect[i]` of `Rect.h` (not among the sources),
giving the coordinates in the order `x1, y1, x2, y2` as a number that `round` accepts. -/
def Rect.index (r : Rect) (i : Nat) : ℚ :=
  match i with
  | 0 => r.x1
  | 1 => r.y1
  | 2 => r.x2
  | _ => r.y2

namespace DnetLandmarksDetector

/-! ## `DnetLandmarksDetector.cpp` -/

/-- Global `INPUT_SIZE` (line 12). -/
def INPUT_SIZE : Int := 64

/-- Initial value of the global `MAX_FLIP_LANDMARKS_DISTANCE` (line 13). -/
def MAX_FLIP_LANDMARKS_DISTANCE : ℚ := 10000

/-- The integer members of `struct ImageCrop` (lines 74-89).  The member `croppedImage` is the
second component of the pair returned by `CropImage` below. -/
structure ImageCrop where
  h : Int
  w : Int
  n : Int
  img_xbegin : Int
  img_ybegin : Int
  img_xend : Int
  img_yend : Int
  face_width : Int
  face_height : Int
  dest_xbegin : Int
  dest_ybegin : Int
  dest_xend : Int
  dest_yend : Int
deriving DecidableEq, Repr

/-- Lines 21-41 of the constructor: rect to square, crop borders, and the initial destination
region.  These are the values before the four edge checks. -/
def ImageCrop.borders (rect : Rect) : ImageCrop :=
  let h := rect.y2 - rect.y1
  let w := rect.x2 - rect.x1
  let n := max h w
  let cropX := truncToInt ((rect.x1 : ℚ) + (w : ℚ) * 0.5 - (n : ℚ) * 0.5)
  let cropY := truncToInt ((rect.y1 : ℚ) + (h : ℚ) * 0.5 - (n : ℚ) * 0.5)
  let cropBox : Rect := ⟨cropX, cropY, cropX + n, cropY + n, rect.score⟩
  let img_xbegin := truncToInt (cRound (cropBox.index 0))
  let img_ybegin := truncToInt (cRound (cropBox.index 1))
  let img_xend := truncToInt (cRound (cropBox.index 2)) + 1
  let img_yend := truncToInt (cRound (cropBox.index 3)) + 1
  let face_width := img_xend - img_xbegin
  let face_height := img_yend - img_ybegin
  ⟨h, w, n, img_xbegin, img_ybegin, img_xend, img_yend, face_width, face_height,
    0, 0, face_width, face_height⟩

/-- Lines 43-61 of the constructor: the four edge checks, in the order of the source. -/
def ImageCrop.edgeChecks (img_width img_height : Int) (c : ImageCrop) : ImageCrop :=
  let c := if c.img_xend > img_width then
      { c with dest_xend := c.face_width - (c.img_xend - img_width), img_xend := img_width }
    else c
  let c := if c.img_yend > img_height then
      { c with dest_yend := c.face_height - (c.img_yend - img_height), img_yend := img_height }
    else c
  let c := if c.img_xbegin < 0 then
      { c with dest_xbegin := -c.img_xbegin, img_xbegin := 0 }
    else c
  let c := if c.img_ybegin < 0 then
      { c with dest_ybegin := -c.img_ybegin, img_ybegin := 0 }
    else c
  c

/-- The integer part of the constructor `ImageCrop::ImageCrop(image, rect)` (lines 17-61),
for an image of `img_width` columns and `img_height` rows. -/
def ImageCrop.ImageCrop (img_width img_height : Int) (rect : Rect) : ImageCrop :=
  ImageCrop.edgeChecks img_width img_height (ImageCrop.borders rect)

end DnetLandmarksDetector

/-- The OpenCV operations used by the sources, over an arbitrary matrix type. -/
structure CvOps (Mat : Type) where
  /-- Member `cols`. -/
  cols : Mat → Int
  /-- Member `rows`. -/
  rows : Mat → Int
  /-- Horizontal mirror, `cv::flip(src, dst, 1)`. -/
  flip : Mat → Mat
  /-- Lines 63-69 of `DnetLandmarksDetector.cpp`: copy the source range into a zero-filled
  `face_height x face_width` buffer at the destination region and resize it to 64 x 64. -/
  cropPadResize : Mat → DnetLandmarksDetector.ImageCrop → Mat
  /-- The pixel pipeline of `NormalizeImage` in `DnetLandmarksDetector.cpp` (lines 100-113). -/
  grayNormalize : Mat → Mat
  /-- The pixel pipeline of `NormalizeImage` in `SphereFaceRecognizer.cpp` on the range
  `cv::Range(y1, y2), cv::Range(x1, x2)` (lines 40 and 51-61); arguments `y1 y2 x1 x2`. -/
  rangeGrayResizeNormalize : Mat → Int → Int → Int → Int → Mat

namespace DnetLandmarksDetector

/-- The constructor call `CropImage(image, rect)` (lines 94-98): the crop geometry and the
cropped, resized image. -/
def CropImage {Mat : Type} (cv : CvOps Mat) (image : Mat) (rect : Rect) : ImageCrop × Mat :=
  let imageCrop := ImageCrop.ImageCrop (cv.cols image) (cv.rows image) rect
  (imageCrop, cv.cropPadResize image imageCrop)

/-- The function `NormalizeImage(image)` (lines 100-113). -/
def NormalizeImage {Mat : Type} (cv : CvOps Mat) (image : Mat) : Mat :=
  cv.grayNormalize image

/-- The function `AdjustLandmarks(imageCrop, landmarks)` (lines 115-143). -/
def AdjustLandmarks (imageCrop : ImageCrop) (landmarks : List ℚ) : List Int :=
  let lm : Nat → ℚ := fun i => landmarks.getD i 0
  let cropH : ℚ := ((imageCrop.img_yend - imageCrop.img_ybegin : Int) : ℚ)
  let cropW : ℚ := ((imageCrop.img_xend - imageCrop.img_xbegin : Int) : ℚ)
  let ratioH : ℚ := cropH / (INPUT_SIZE : ℚ)
  let ratioW : ℚ := cropW / (INPUT_SIZE : ℚ)
  let adjustedLandmarks : List ℚ := [
    (lm 26 + lm 27 + lm 29 + lm 30) / 4,
    (lm (26 + 43) + lm (27 + 43) + lm (29 + 43) + lm (30 + 43)) / 4,
    (lm 20 + lm 21 + lm 23 + lm 24) / 4,
    (lm (20 + 43) + lm (21 + 43) + lm (23 + 43) + lm (24 + 43)) / 4,
    lm 13, lm (13 + 43),
    lm 37, lm (37 + 43),
    lm 31, lm (31 + 43)]
  let adjustedLandmarks : List ℚ := (List.range 5).foldl (fun adj k =>
    let i := 2 * k
    let adj := adj.set i (adj.getD i 0 * (INPUT_SIZE : ℚ) * ratioW + (imageCrop.img_xbegin : ℚ))
    adj.set (i + 1)
      (adj.getD (i + 1) 0 * (INPUT_SIZE : ℚ) * ratioH + (imageCrop.img_ybegin : ℚ)))
    adjustedLandmarks
  (List.range 10).map (fun i => truncToInt (adjustedLandmarks.getD i 0))

/-- The function `FlipLandmarks(landmarks, w)` (lines 145-155). -/
def FlipLandmarks (landmarks : List Int) (w : Int) : List Int :=
  let lm : Nat → Int := fun i => landmarks.getD i 0
  [w - lm 2, lm 3,
   w - lm 0, lm 1,
   w - lm 4, lm 5,
   w - lm 8, lm 9,
   w - lm 6, lm 7]

/-- The method `DoDetect(image, face)` (lines 184-202).  The counter `calls` is the number of
invocations of the inference engine so far. -/
def DoDetect {Mat : Type} (cv : CvOps Mat) (mTensorFlowInference : Mat → List ℚ)
    (image : Mat) (face : Rect) (calls : Nat) : List Int × Nat :=
  let (imageCrop, croppedImage) := CropImage cv image face
  let image := NormalizeImage cv croppedImage
  let output_landmarks := mTensorFlowInference image
  let landmarks := AdjustLandmarks imageCrop output_landmarks
  (landmarks, calls + 1)

/-- The comparison `distance > t` of line 176 on doubles; NaN compares false. -/
def exceeds (distance : Option ℚ) (t : ℚ) : Bool :=
  match distance with
  | some v => decide (v > t)
  | none => false

/-- Line 213: the rect handed to the detection on the mirrored image. -/
def flippedFace (cols : Int) (face : Rect) : Rect :=
  ⟨cols - face.x1, face.y1, cols - face.x2, face.y2, face.score⟩

/-- Lines 219-220: the accumulation of the squared coordinate differences in `double`.  The
difference is an `int`, `std::pow(x, 2)` is the rounded square and `+=` the rounded sum. -/
def sumSquares (landmarks flippedLandmarks : List Int) : ℚ :=
  (List.range 10).foldl (fun distance i =>
    roundDouble (distance
      + roundDouble ((((landmarks.getD i 0 - flippedLandmarks.getD i 0 : Int) : ℚ)) ^ 2))) 0

/-- The method `CalcFlippedLandmarksDistance(imageData, face, landmarks)` (lines 204-224) for
the value `maxDistance` of the global `MAX_FLIP_LANDMARKS_DISTANCE`. -/
def CalcFlippedLandmarksDistance {Mat : Type} (cv : CvOps Mat)
    (mTensorFlowInference : Mat → List ℚ) (maxDistance : ℚ)
    (imageData : Mat) (face : Rect) (landmarks : List Int) (calls : Nat) : Option ℚ × Nat :=
  if maxDistance = 10000 then (some 0, calls)
  else
    let image := imageData
    let flippedImage := cv.flip image
    let flippedFace := flippedFace (cv.cols image) face
    let (flippedLandmarks, calls) := DoDetect cv mTensorFlowInference flippedImage flippedFace calls
    let flippedLandmarks := FlipLandmarks flippedLandmarks (cv.cols imageData)
    let distance := sumSquares landmarks flippedLandmarks
    let distance := sqrtDouble distance
    (distance, calls)

/-- The method `Detect(imageData, face)` (lines 168-182) for the value `maxDistance` of the
global `MAX_FLIP_LANDMARKS_DISTANCE`. -/
def Detect {Mat : Type} (cv : CvOps Mat) (mTensorFlowInference : Mat → List ℚ)
    (maxDistance : ℚ) (imageData : Mat) (face : Rect) (calls : Nat) : List Int × Nat :=
  let (landmarks, calls) := DoDetect cv mTensorFlowInference imageData face calls
  let (distance, calls) :=
    CalcFlippedLandmarksDistance cv mTensorFlowInference maxDistance imageData face landmarks calls
  if exceeds distance maxDistance then ([], calls) else (landmarks, calls)

/-- The landmark vector as the specification describes it, for a square crop of side `S` with
top-left corner `(X0, Y0)` and model output `o`: the five points in the order left eye, right
eye, nose, mouth left, mouth right, each x mapped to `trunc(v * 64 * (S / 64) + X0)` and each
y to `trunc(v * 64 * (S / 64) + Y0)`. -/
def specLandmarks (S X0 Y0 : Int) (o : List ℚ) : List Int :=
  let v : Nat → ℚ := fun i => o.getD i 0
  let mapX : ℚ → Int := fun a => truncToInt (a * 64 * ((S : ℚ) / 64) + (X0 : ℚ))
  let mapY : ℚ → Int := fun a => truncToInt (a * 64 * ((S : ℚ) / 64) + (Y0 : ℚ))
  [mapX ((v 26 + v 27 + v 29 + v 30) / 4), mapY ((v 69 + v 70 + v 72 + v 73) / 4),
   mapX ((v 20 + v 21 + v 23 + v 24) / 4), mapY ((v 63 + v 64 + v 66 + v 67) / 4),
   mapX (v 13), mapY (v 56),
   mapX (v 37), mapY (v 80),
   mapX (v 31), mapY (v 74)]

end DnetLandmarksDetector

namespace SphereFaceRecognizer

/-! ## `SphereFaceRecognizer.cpp` -/

/-- The two ranges `cv::Range(y1, y2)`, `cv::Range(x1, x2)` of line 40. -/
structure CropRange where
  x1 : Int
  x2 : Int
  y1 : Int
  y2 : Int
deriving DecidableEq, Repr

/-- The value `*std::min_element(first, last)` of a non-empty vector of `int`. -/
def minElement : List Int → Int
  | [] => 0
  | x :: xs => xs.foldl (fun smallest v => if v < smallest then v else smallest) x

/-- The value `*std::max_element(first, last)` of a non-empty vector of `int`. -/
def maxElement : List Int → Int
  | [] => 0
  | x :: xs => xs.foldl (fun largest v => if largest < v then v else largest) x

/-- The window computed by `CropImage(image, landmarks)` (lines 12-38). -/
def CropImage {Mat : Type} (cv : CvOps Mat) (image : Mat) (landmarks : List Int) : CropRange :=
  let xPoints := (List.range 5).map (fun k => landmarks.getD (2 * k) 0)
  let yPoints := (List.range 5).map (fun k => landmarks.getD (2 * k + 1) 0)
  let xMin := minElement xPoints
  let xMax := maxElement xPoints
  let yMin := minElement yPoints
  let yMax := maxElement yPoints
  let w := xMax - xMin
  let h := yMax - yMin
  let x1 := xMin - truncToInt ((w : ℚ) * 0.75)
  let x2 := xMax + truncToInt ((w : ℚ) * 0.75)
  let y1 := yMin - truncToInt ((h : ℚ) * 0.75)
  let y2 := yMax + truncToInt ((h : ℚ) * 0.75)
  let x1 := max 0 x1
  let x2 := min (cv.cols image) x2
  let y1 := max 0 y1
  let y2 := min (cv.rows image) y2
  ⟨x1, x2, y1, y2⟩

/-- The function `NormalizeImage(image, landmarks)` (lines 45-64). -/
def NormalizeImage {Mat : Type} (cv : CvOps Mat) (image : Mat) (landmarks : List Int) : Mat :=
  let r := CropImage cv image landmarks
  cv.rangeGrayResizeNormalize image r.y1 r.y2 r.x1 r.x2

/-- The method `SphereFaceRecognizer::Infer(imageData, landmarks)` (lines 74-100). -/
def Infer {Mat : Type} (cv : CvOps Mat) (mTensorFlowInference : Mat → List ℚ)
    (imageData : Mat) (landmarks : List Int) : List ℚ :=
  let image := NormalizeImage cv imageData landmarks
  let output_features := mTensorFlowInference image
  let image := cv.flip image
  let output_features_2 := mTensorFlowInference image
  let features : List ℚ := List.replicate 1024 0
  (List.range 512).foldl (fun features i =>
    (features.set i (output_features.getD i 0)).set (i + 512) (output_features_2.getD i 0))
    features

end SphereFaceRecognizer

namespace fatest

/-! ## `fatest.cpp` -/

/-- The function `CalculateTPR(fpr_divider, diff_scores, same_scores)` (lines 87-104).  The
sizes are converted to `double`, both divisions are divisions of doubles, and `++tp` is a
rounded addition.  The result is `none` when a division has no finite value or when
`borderIndex` is not an index of `diff_scores`. -/
def CalculateTPR (fpr_divider : ℚ) (diff_scores same_scores : List ℚ) : Option ℚ :=
  let diff_scores := (diff_scores.insertionSort (fun a b => a ≤ b)).reverse
  match divDouble (roundDouble (diff_scores.length : ℚ)) fpr_divider with
  | none => none
  | some quotient =>
    let borderIndex : Int := truncToInt quotient
    if borderIndex < 0 then none
    else
      match diff_scores[borderIndex.toNat]? with
      | none => none
      | some borderScore =>
        let tp : ℚ := same_scores.foldl
          (fun tp g => if g > borderScore then roundDouble (tp + 1) else tp) 0
        divDouble tp (roundDouble (same_scores.length : ℚ))

end fatest

/-! ## Fixtures for concrete evaluation -/

/-- A matrix type for concrete evaluation: the size and a tag telling the processing steps
applied so far. -/
structure TestMat where
  cols : Int
  rows : Int
  tag : Nat
deriving DecidableEq, Repr

/-- OpenCV stand-in on `TestMat`: each operation records itself in the tag. -/
def testCv : CvOps TestMat where
  cols := fun m => m.cols
  rows := fun m => m.rows
  flip := fun m => ⟨m.cols, m.rows, 2 * m.tag + 1⟩
  cropPadResize := fun m _ => ⟨64, 64, 2 * m.tag + 2⟩
  grayNormalize := fun m => ⟨m.cols, m.rows, 4 * m.tag⟩
  rangeGrayResizeNormalize := fun m _ _ _ _ => ⟨128, 128, 4 * m.tag + 2⟩

/-- Engine stand-in: 88 equal values that depend on the tag of the input. -/
def testInfer (m : TestMat) : List ℚ :=
  List.replicate 88 (1 / ((m.tag : ℚ) + 2))

/-- Engine stand-in for recognition: 512 equal values that depend on the tag of the input. -/
def testFeatures (m : TestMat) : List ℚ :=
  List.replicate 512 ((m.tag : ℚ) + 1)

/-- A 200 x 200 image for the flip gate. -/
def gateImage : TestMat := ⟨200, 200, 0⟩

/-- A 63 x 63 face rect inside `gateImage`; its square crop is `[50, 114) x [50, 114)`, and
the crop of its mirrored rect is `[87, 151) x [50, 114)`, both of side 64. -/
def gateFace : Rect := ⟨50, 50, 113, 113, 1⟩

/-- Engine stand-in for the flip gate.  On the crop of the unmirrored image (tag 8) every
output is 0.  On the crop of the mirrored image every x output is `63/64` and every y output
is 0, except the y outputs of the nose (56), the mouth-right (74) and the mouth-left (80)
point, which are `1/64`.  All values and all products with 64 are exact in binary32. -/
def gateInfer (m : TestMat) : List ℚ :=
  if m.tag = 8 then List.replicate 88 0
  else (List.range 88).map (fun i =>
    if i < 43 then 63 / 64 else if i = 56 ∨ i = 74 ∨ i = 80 then 1 / 64 else 0)

/-- The primary landmarks of `testInfer` on the test image and face. -/
def farPrimary : List Int := [10, 15, 10, 15, 10, 15, 10, 15, 10, 15]

/-- The un-mirrored landmarks of the mirrored detection of `testInfer` on the test image and
face. -/
def farUnmirrored : List Int := [53, 12, 53, 12, 53, 12, 53, 12, 53, 12]

/-- A 100 x 100 test image. -/
def testImage : TestMat := ⟨100, 100, 0⟩

/-- A tall face rect that touches the top and bottom edge of a 100 x 50 image; its square crop
window `[-5, 46) x [0, 51)` leaves the image on the left and at the bottom. -/
def tallFace : Rect := ⟨10, 0, 30, 50, 1⟩

/-- Five landmarks inside `testImage`. -/
def testLandmarks : List Int := [10, 10, 30, 12, 20, 20, 12, 30, 28, 31]

/-- A face rect inside `testImage`. -/
def testFace : Rect := ⟨10, 10, 50, 60, 1⟩

end FRVT_11

/-! ## Conversions: basic facts -/

namespace FRVT_11

theorem truncToInt_intCast (z : Int) : truncToInt (z : ℚ) = z := by
  unfold truncToInt
  split <;> simp

theorem truncToInt_nonneg {q : ℚ} (hq : 0 ≤ q) : 0 ≤ truncToInt q := by
  unfold truncToInt
  rw [if_pos hq]
  exact Int.floor_nonneg.mpr hq

theorem truncToInt_eq_floor {q : ℚ} (hq : 0 ≤ q) : truncToInt q = ⌊q⌋ := by
  unfold truncToInt
  rw [if_pos hq]

theorem cRound_intCast (z : Int) : cRound (z : ℚ) = (z : ℚ) := by
  unfold cRound
  split
  · have hfloor : ⌊(z : ℚ) + 1 / 2⌋ = z := by
      rw [Int.floor_eq_iff]
      constructor <;> norm_num
    rw [hfloor]
  · have hceil : ⌈(z : ℚ) - 1 / 2⌉ = z := by
      rw [Int.ceil_eq_iff]
      constructor <;> norm_num
    rw [hceil]

theorem truncToInt_cRound_intCast (z : Int) : truncToInt (cRound (z : ℚ)) = z := by
  rw [cRound_intCast, truncToInt_intCast]

namespace DnetLandmarksDetector

/-! ## The square crop -/

theorem borders_face_width (rect : Rect) :
    (ImageCrop.borders rect).face_width = max (rect.y2 - rect.y1) (rect.x2 - rect.x1) + 1 := by
  simp only [ImageCrop.borders, Rect.index, truncToInt_cRound_intCast]
  omega

theorem borders_face_height (rect : Rect) :
    (ImageCrop.borders rect).face_height = max (rect.y2 - rect.y1) (rect.x2 - rect.x1) + 1 := by
  simp only [ImageCrop.borders, Rect.index, truncToInt_cRound_intCast]
  omega

theorem borders_shape (rect : Rect) :
    (ImageCrop.borders rect).img_xend
        = (ImageCrop.borders rect).img_xbegin + (ImageCrop.borders rect).face_width ∧
      (ImageCrop.borders rect).img_yend
        = (ImageCrop.borders rect).img_ybegin + (ImageCrop.borders rect).face_height ∧
      (ImageCrop.borders rect).dest_xbegin = 0 ∧
      (ImageCrop.borders rect).dest_ybegin = 0 ∧
      (ImageCrop.borders rect).dest_xend = (ImageCrop.borders rect).face_width ∧
      (ImageCrop.borders rect).dest_yend = (ImageCrop.borders rect).face_height := by
  simp only [ImageCrop.borders]
  refine ⟨by omega, by omega, trivial, trivial, trivial, trivial⟩

theorem edgeChecks_face (W H : Int) (c : ImageCrop) :
    (ImageCrop.edgeChecks W H c).face_width = c.face_width ∧
      (ImageCrop.edgeChecks W H c).face_height = c.face_height := by
  by_cases h1 : c.img_xend > W <;> by_cases h2 : c.img_yend > H <;>
    by_cases h3 : c.img_xbegin < 0 <;> by_cases h4 : c.img_ybegin < 0 <;>
    simp [ImageCrop.edgeChecks, h1, h2, h3, h4]

/-- The four edge checks on any pre-state shaped like the one of lines 30-41. -/
theorem edgeChecks_safe (W H : Int) (c : ImageCrop)
    (hxe : c.img_xend = c.img_xbegin + c.face_width)
    (hye : c.img_yend = c.img_ybegin + c.face_height)
    (hdx : c.dest_xbegin = 0) (hdy : c.dest_ybegin = 0)
    (hdxe : c.dest_xend = c.face_width) (hdye : c.dest_yend = c.face_height)
    (hx : max c.img_xbegin 0 < min (c.img_xbegin + c.face_width) W)
    (hy : max c.img_ybegin 0 < min (c.img_ybegin + c.face_height) H) :
    (0 ≤ (ImageCrop.edgeChecks W H c).img_xbegin ∧
      (ImageCrop.edgeChecks W H c).img_xbegin ≤ (ImageCrop.edgeChecks W H c).img_xend ∧
      (ImageCrop.edgeChecks W H c).img_xend ≤ W) ∧
    (0 ≤ (ImageCrop.edgeChecks W H c).img_ybegin ∧
      (ImageCrop.edgeChecks W H c).img_ybegin ≤ (ImageCrop.edgeChecks W H c).img_yend ∧
      (ImageCrop.edgeChecks W H c).img_yend ≤ H) ∧
    (0 ≤ (ImageCrop.edgeChecks W H c).dest_xbegin ∧
      (ImageCrop.edgeChecks W H c).dest_xbegin ≤ (ImageCrop.edgeChecks W H c).dest_xend ∧
      (ImageCrop.edgeChecks W H c).dest_xend ≤ c.face_width) ∧
    (0 ≤ (ImageCrop.edgeChecks W H c).dest_ybegin ∧
      (ImageCrop.edgeChecks W H c).dest_ybegin ≤ (ImageCrop.edgeChecks W H c).dest_yend ∧
      (ImageCrop.edgeChecks W H c).dest_yend ≤ c.face_height) ∧
    ((ImageCrop.edgeChecks W H c).dest_xend - (ImageCrop.edgeChecks W H c).dest_xbegin
        = (ImageCrop.edgeChecks W H c).img_xend - (ImageCrop.edgeChecks W H c).img_xbegin ∧
      (ImageCrop.edgeChecks W H c).dest_yend - (ImageCrop.edgeChecks W H c).dest_ybegin
        = (ImageCrop.edgeChecks W H c).img_yend - (ImageCrop.edgeChecks W H c).img_ybegin) ∧
    ((ImageCrop.edgeChecks W H c).dest_xbegin
        = (ImageCrop.edgeChecks W H c).img_xbegin - c.img_xbegin ∧
      (ImageCrop.edgeChecks W H c).dest_ybegin
        = (ImageCrop.edgeChecks W H c).img_ybegin - c.img_ybegin) ∧
    ((ImageCrop.edgeChecks W H c).img_xbegin = max c.img_xbegin 0 ∧
      (ImageCrop.edgeChecks W H c).img_xend = min (c.img_xbegin + c.face_width) W ∧
      (ImageCrop.edgeChecks W H c).img_ybegin = max c.img_ybegin 0 ∧
      (ImageCrop.edgeChecks W H c).img_yend = min (c.img_ybegin + c.face_height) H) := by
  obtain ⟨h, w, n, xb, yb, xe, ye, fw, fh, dxb, dyb, dxe, dye⟩ := c
  simp only at hxe hye hdx hdy hdxe hdye hx hy
  by_cases h1 : xe > W <;> by_cases h2 : ye > H <;>
    by_cases h3 : xb < 0 <;> by_cases h4 : yb < 0 <;>
    simp only [ImageCrop.edgeChecks, h1, h2, h3, h4, if_true, if_false] <;> omega

end DnetLandmarksDetector
end FRVT_11

namespace FRVT_11

/-! ## binary64 arithmetic: basic facts -/

theorem roundHalfEven_intCast (z : Int) : roundHalfEven (z : ℚ) = z := by
  unfold roundHalfEven
  rw [Int.floor_intCast, sub_self, if_pos (by norm_num)]

theorem roundHalfEven_le {m : ℚ} {K : Int} (h : m ≤ (K : ℚ)) : roundHalfEven m ≤ K := by
  have hfl : ⌊m⌋ ≤ K := (Int.floor_le_floor h).trans (le_of_eq (Int.floor_intCast K))
  unfold roundHalfEven
  by_cases h1 : m - (⌊m⌋ : ℚ) < 1 / 2
  · rw [if_pos h1]
    exact hfl
  · have hlt : ⌊m⌋ < K := by
      rcases lt_or_eq_of_le hfl with hlt | heq
      · exact hlt
      · exfalso
        apply h1
        have hm : m = (K : ℚ) := le_antisymm h (by rw [← heq]; exact Int.floor_le m)
        rw [hm, Int.floor_intCast, sub_self]
        norm_num
    rw [if_neg h1]
    split_ifs <;> omega

theorem le_roundHalfEven {m : ℚ} {K : Int} (h : (K : ℚ) ≤ m) : K ≤ roundHalfEven m := by
  have hfl : K ≤ ⌊m⌋ := Int.le_floor.mpr h
  unfold roundHalfEven
  split_ifs <;> omega

theorem quantum_pos (x : ℚ) : 0 < quantum x := by
  unfold quantum
  positivity

/-- On a binade of exponent at most 52 every integer is a multiple of the quantum. -/
theorem intCast_div_quantum {x : ℚ} (hb : binade x ≤ 52) (K : Int) :
    (K : ℚ) / quantum x = ((K * 2 ^ (52 - binade x).toNat : Int) : ℚ) := by
  have hnn : (0 : Int) ≤ 52 - binade x := by omega
  have hq : quantum x = ((2 : ℚ) ^ (52 - binade x).toNat)⁻¹ := by
    unfold quantum
    rw [← zpow_natCast, Int.toNat_of_nonneg hnn, ← zpow_neg]
    congr 1
    ring
  rw [hq, div_inv_eq_mul]
  push_cast
  ring

theorem binade_le_of_lt {x : ℚ} (hx : 0 < x) (hlt : x < 2 ^ 53) : binade x ≤ 52 := by
  have h := (Int.lt_zpow_iff_log_lt (b := 2) (by norm_num) hx (x := 53)).mp (by exact_mod_cast hlt)
  unfold binade
  omega

theorem roundDouble_of_nonneg {x : ℚ} (hx : 0 ≤ x) :
    roundDouble x = (roundHalfEven (x / quantum x) : ℚ) * quantum x := by
  unfold roundDouble
  rw [if_pos hx]

/-- Rounding never crosses an integer that lies at least one quantum above. -/
theorem roundDouble_le_sub_quantum {x : ℚ} (hx : 0 < x) (hb : binade x ≤ 52) (K : Int)
    (h : x ≤ (K : ℚ) - quantum x) : roundDouble x ≤ (K : ℚ) - quantum x := by
  have hq := quantum_pos x
  have hdiv : x / quantum x ≤ ((K * 2 ^ (52 - binade x).toNat - 1 : Int) : ℚ) := by
    rw [Int.cast_sub, ← intCast_div_quantum hb K, Int.cast_one, div_le_iff₀ hq, sub_mul,
      div_mul_cancel₀ _ (ne_of_gt hq), one_mul]
    exact h
  have hr := roundHalfEven_le hdiv
  have hr' : (roundHalfEven (x / quantum x) : ℚ)
      ≤ ((K * 2 ^ (52 - binade x).toNat - 1 : Int) : ℚ) := by exact_mod_cast hr
  rw [roundDouble_of_nonneg (le_of_lt hx)]
  calc (roundHalfEven (x / quantum x) : ℚ) * quantum x
      ≤ ((K * 2 ^ (52 - binade x).toNat - 1 : Int) : ℚ) * quantum x :=
        mul_le_mul_of_nonneg_right hr' (le_of_lt hq)
    _ = (K : ℚ) - quantum x := by
        rw [Int.cast_sub, ← intCast_div_quantum hb K, Int.cast_one, sub_mul,
          div_mul_cancel₀ _ (ne_of_gt hq), one_mul]

/-- Rounding never falls below an integer lower bound. -/
theorem le_roundDouble {x : ℚ} (hx : 0 < x) (hb : binade x ≤ 52) (K : Int)
    (h : (K : ℚ) ≤ x) : (K : ℚ) ≤ roundDouble x := by
  have hq := quantum_pos x
  have hdiv : ((K * 2 ^ (52 - binade x).toNat : Int) : ℚ) ≤ x / quantum x := by
    rw [← intCast_div_quantum hb K]
    exact div_le_div_of_nonneg_right h (le_of_lt hq)
  have hr := le_roundHalfEven hdiv
  have hr' : ((K * 2 ^ (52 - binade x).toNat : Int) : ℚ)
      ≤ (roundHalfEven (x / quantum x) : ℚ) := by exact_mod_cast hr
  rw [roundDouble_of_nonneg (le_of_lt hx)]
  calc (K : ℚ) = (K : ℚ) / quantum x * quantum x := by
        rw [div_mul_cancel₀ _ (ne_of_gt hq)]
    _ = ((K * 2 ^ (52 - binade x).toNat : Int) : ℚ) * quantum x := by
        rw [intCast_div_quantum hb K]
    _ ≤ (roundHalfEven (x / quantum x) : ℚ) * quantum x :=
        mul_le_mul_of_nonneg_right hr' (le_of_lt hq)

/-- Natural numbers below `2^53` are doubles. -/
theorem roundDouble_natCast (n : Nat) (hn : n < 2 ^ 53) : roundDouble (n : ℚ) = (n : ℚ) := by
  rcases Nat.eq_zero_or_pos n with rfl | hpos
  · simp [roundDouble, roundHalfEven]
  · have hx : (0 : ℚ) < (n : ℚ) := by exact_mod_cast hpos
    have hlt : (n : ℚ) < 2 ^ 53 := by exact_mod_cast hn
    have hb := binade_le_of_lt hx hlt
    have hq := quantum_pos (n : ℚ)
    have hdiv := intCast_div_quantum hb (n : Int)
    rw [Int.cast_natCast] at hdiv
    rw [roundDouble_of_nonneg (le_of_lt hx), hdiv, roundHalfEven_intCast, ← hdiv,
      div_mul_cancel₀ _ (ne_of_gt hq)]

theorem quantum_le {x g : ℚ} (hx : 0 < x) (h1 : x / 2 ^ 52 ≤ g) (h2 : x < 1 / 2 → 1 / 2 ≤ g) :
    quantum x ≤ g := by
  unfold quantum binade
  by_cases he : (-1022 : Int) ≤ Int.log 2 x
  · rw [max_eq_left he, zpow_sub₀ (by norm_num : (2 : ℚ) ≠ 0)]
    have hlog : (2 : ℚ) ^ Int.log 2 x ≤ x := by
      have := Int.zpow_log_le_self (b := 2) (by norm_num) hx
      exact_mod_cast this
    have h52 : (2 : ℚ) ^ (52 : Int) = 2 ^ 52 := by norm_cast
    rw [h52]
    exact le_trans (div_le_div_of_nonneg_right hlog (by positivity)) h1
  · have he' : Int.log 2 x + 1 ≤ -1022 := by omega
    rw [max_eq_right (by omega)]
    have hup : x < (2 : ℚ) ^ (Int.log 2 x + 1) := by
      have := Int.lt_zpow_succ_log_self (b := 2) (by norm_num) x
      exact_mod_cast this
    have hmono : (2 : ℚ) ^ (Int.log 2 x + 1) ≤ (2 : ℚ) ^ (-1 : Int) :=
      zpow_le_zpow_right₀ (by norm_num) (by omega)
    have hhalf : (2 : ℚ) ^ (-1 : Int) = 1 / 2 := by norm_num
    have hq : (2 : ℚ) ^ ((-1022 : Int) - 52) ≤ (2 : ℚ) ^ (-1 : Int) :=
      zpow_le_zpow_right₀ (by norm_num) (by norm_num)
    have hx2 : x < 1 / 2 := by
      rw [← hhalf]
      exact lt_of_lt_of_le hup hmono
    rw [hhalf] at hq
    exact le_trans hq (h2 hx2)

/-- A positive value below `2^53` that stays a quantum below the integer `K` rounds to a
value in `[0, K)`. -/
theorem roundDouble_lt_of_gap {x : ℚ} (hx : 0 < x) (hlt : x < 2 ^ 53) (K : Int)
    (h1 : x / 2 ^ 52 ≤ (K : ℚ) - x) (h2 : x < 1 / 2 → 1 / 2 ≤ (K : ℚ) - x) :
    0 ≤ roundDouble x ∧ roundDouble x < (K : ℚ) := by
  have hb := binade_le_of_lt hx hlt
  have hq := quantum_le hx h1 h2
  have hqpos := quantum_pos x
  have hle := roundDouble_le_sub_quantum hx hb K (by linarith)
  have h0 := le_roundDouble hx hb 0 (by simpa using le_of_lt hx)
  constructor
  · simpa using h0
  · linarith

/-- A double above 1 is at least `1 + 2^-52`. -/
theorem double_gt_one {N : ℚ} (hNd : roundDouble N = N) (hN : 1 < N) :
    1 + 1 / 2 ^ 52 ≤ N := by
  have hpos : (0 : ℚ) < N := lt_trans zero_lt_one hN
  by_cases h2 : 2 ≤ N
  · have : (1 : ℚ) + 1 / 2 ^ 52 ≤ 2 := by norm_num
    exact le_trans this h2
  · have hlt2 : N < 2 := not_le.mp h2
    have hlog0 : 0 ≤ Int.log 2 N := by
      apply (Int.zpow_le_iff_le_log (b := 2) (by norm_num) hpos).mp
      simpa using le_of_lt hN
    have hlog1 : Int.log 2 N < 1 := by
      apply (Int.lt_zpow_iff_log_lt (b := 2) (by norm_num) hpos).mp
      simpa using hlt2
    have hlog : Int.log 2 N = 0 := by omega
    have hq : quantum N = 1 / 2 ^ 52 := by
      unfold quantum binade
      rw [hlog]
      norm_num
    rw [roundDouble_of_nonneg (le_of_lt hpos), hq] at hNd
    have hk : (2 : ℚ) ^ 52 < (roundHalfEven (N / (1 / 2 ^ 52)) : ℚ) := by
      have : (1 : ℚ) < (roundHalfEven (N / (1 / 2 ^ 52)) : ℚ) * (1 / 2 ^ 52) := by
        rw [hNd]
        exact hN
      rw [mul_one_div, lt_div_iff₀ (by positivity)] at this
      linarith
    have hk' : (2 : Int) ^ 52 < roundHalfEven (N / (1 / 2 ^ 52)) := by exact_mod_cast hk
    have hk'' : ((2 ^ 52 + 1 : Int) : ℚ) ≤ (roundHalfEven (N / (1 / 2 ^ 52)) : ℚ) := by
      exact_mod_cast (show (2 : Int) ^ 52 + 1 ≤ roundHalfEven (N / (1 / 2 ^ 52)) by omega)
    rw [← hNd]
    calc (1 : ℚ) + 1 / 2 ^ 52 = ((2 ^ 52 + 1 : Int) : ℚ) * (1 / 2 ^ 52) := by norm_num
      _ ≤ (roundHalfEven (N / (1 / 2 ^ 52)) : ℚ) * (1 / 2 ^ 52) :=
          mul_le_mul_of_nonneg_right hk'' (by positivity)

end FRVT_11

namespace FRVT_11
namespace DnetLandmarksDetector

/-- C3 (counterexample).  For the rect `(0, 0, 10, 10)`, which lies fully inside a 100 x 100
image, `n = max(x2 - x1, y2 - y1) = 10`, but the buffer that `ImageCrop` allocates before the
resize is 11 x 11, not 10 x 10. -/
theorem ImageCrop_buffer_not_n_by_n :
    (0 ≤ (⟨0, 0, 10, 10, 0⟩ : Rect).x1 ∧
        (⟨0, 0, 10, 10, 0⟩ : Rect).x1 ≤ (⟨0, 0, 10, 10, 0⟩ : Rect).x2 ∧
        (⟨0, 0, 10, 10, 0⟩ : Rect).x2 ≤ 100 ∧
        0 ≤ (⟨0, 0, 10, 10, 0⟩ : Rect).y1 ∧
        (⟨0, 0, 10, 10, 0⟩ : Rect).y1 ≤ (⟨0, 0, 10, 10, 0⟩ : Rect).y2 ∧
        (⟨0, 0, 10, 10, 0⟩ : Rect).y2 ≤ 100) ∧
      max ((⟨0, 0, 10, 10, 0⟩ : Rect).x2 - (⟨0, 0, 10, 10, 0⟩ : Rect).x1)
        ((⟨0, 0, 10, 10, 0⟩ : Rect).y2 - (⟨0, 0, 10, 10, 0⟩ : Rect).y1) = 10 ∧
      (ImageCrop.ImageCrop 100 100 ⟨0, 0, 10, 10, 0⟩).face_width = 11 ∧
      (ImageCrop.ImageCrop 100 100 ⟨0, 0, 10, 10, 0⟩).face_height = 11 ∧
      ¬ ((ImageCrop.ImageCrop 100 100 ⟨0, 0, 10, 10, 0⟩).face_width = 10 ∧
          (ImageCrop.ImageCrop 100 100 ⟨0, 0, 10, 10, 0⟩).face_height = 10) := by
  have hw : (ImageCrop.ImageCrop 100 100 ⟨0, 0, 10, 10, 0⟩).face_width = 11 := by
    rw [ImageCrop.ImageCrop, (edgeChecks_face _ _ _).1, borders_face_width]
    decide
  have hh : (ImageCrop.ImageCrop 100 100 ⟨0, 0, 10, 10, 0⟩).face_height = 11 := by
    rw [ImageCrop.ImageCrop, (edgeChecks_face _ _ _).2, borders_face_height]
    decide
  refine ⟨by decide, by decide, hw, hh, ?_⟩
  rw [hw, hh]
  decide

/-- C3 (amended).  For every image of size `W x H` and every rect with integer coordinates
that lies fully inside the image, the buffer that `ImageCrop` allocates before the resize
(`face_width x face_height`) has dimensions `(n + 1) x (n + 1)`, where
`n = max(x2 - x1, y2 - y1)`. -/
theorem ImageCrop_buffer_side (W H : Int) (rect : Rect)
    (_hx1 : 0 ≤ rect.x1) (_hx : rect.x1 ≤ rect.x2) (_hx2 : rect.x2 ≤ W)
    (_hy1 : 0 ≤ rect.y1) (_hy : rect.y1 ≤ rect.y2) (_hy2 : rect.y2 ≤ H) :
    (ImageCrop.ImageCrop W H rect).face_width
        = max (rect.x2 - rect.x1) (rect.y2 - rect.y1) + 1 ∧
      (ImageCrop.ImageCrop W H rect).face_height
        = max (rect.x2 - rect.x1) (rect.y2 - rect.y1) + 1 := by
  rw [ImageCrop.ImageCrop, (edgeChecks_face _ _ _).1, (edgeChecks_face _ _ _).2,
    borders_face_width, borders_face_height, max_comm]
  exact ⟨rfl, rfl⟩

/-- C3 (witness): the rect `(10, 0, 30, 50)` in a 100 x 50 image gets a 51 x 51 buffer. -/
theorem ImageCrop_buffer_side_witness :
    (ImageCrop.ImageCrop 100 50 ⟨10, 0, 30, 50, 0⟩).face_width = max (30 - 10) (50 - 0) + 1 ∧
      (ImageCrop.ImageCrop 100 50 ⟨10, 0, 30, 50, 0⟩).face_height
        = max (30 - 10) (50 - 0) + 1 :=
  ImageCrop_buffer_side 100 50 ⟨10, 0, 30, 50, 0⟩ (by decide) (by decide) (by decide)
    (by decide) (by decide) (by decide)

/-- C4.  For every image of size `W x H` and every rect whose un-clamped square crop window
`[X0, X0 + face_width) x [Y0, Y0 + face_height)` overlaps the image, the values after the four
edge checks satisfy: the source range is inside the image, the destination region is inside
the `face_width x face_height` buffer, source and destination have the same size, the
destination offset is the source offset relative to the window corner `(X0, Y0)`, and the
source range is exactly the intersection of the window with the image:
`[max(X0, 0), min(X0 + face_width, W)) x [max(Y0, 0), min(Y0 + face_height, H))`, so that the
copied region is the whole overlap and only the part of the window outside the image stays
zero.  The buffer size `face_width x face_height` is not changed by the edge checks. -/
theorem ImageCrop_edge_checks_safe (W H : Int) (rect : Rect)
    (hx : max (ImageCrop.borders rect).img_xbegin 0
      < min ((ImageCrop.borders rect).img_xbegin + (ImageCrop.borders rect).face_width) W)
    (hy : max (ImageCrop.borders rect).img_ybegin 0
      < min ((ImageCrop.borders rect).img_ybegin + (ImageCrop.borders rect).face_height) H) :
    (0 ≤ (ImageCrop.ImageCrop W H rect).img_xbegin ∧
      (ImageCrop.ImageCrop W H rect).img_xbegin ≤ (ImageCrop.ImageCrop W H rect).img_xend ∧
      (ImageCrop.ImageCrop W H rect).img_xend ≤ W) ∧
    (0 ≤ (ImageCrop.ImageCrop W H rect).img_ybegin ∧
      (ImageCrop.ImageCrop W H rect).img_ybegin ≤ (ImageCrop.ImageCrop W H rect).img_yend ∧
      (ImageCrop.ImageCrop W H rect).img_yend ≤ H) ∧
    (0 ≤ (ImageCrop.ImageCrop W H rect).dest_xbegin ∧
      (ImageCrop.ImageCrop W H rect).dest_xbegin ≤ (ImageCrop.ImageCrop W H rect).dest_xend ∧
      (ImageCrop.ImageCrop W H rect).dest_xend ≤ (ImageCrop.ImageCrop W H rect).face_width) ∧
    (0 ≤ (ImageCrop.ImageCrop W H rect).dest_ybegin ∧
      (ImageCrop.ImageCrop W H rect).dest_ybegin ≤ (ImageCrop.ImageCrop W H rect).dest_yend ∧
      (ImageCrop.ImageCrop W H rect).dest_yend ≤ (ImageCrop.ImageCrop W H rect).face_height) ∧
    ((ImageCrop.ImageCrop W H rect).dest_xend - (ImageCrop.ImageCrop W H rect).dest_xbegin
        = (ImageCrop.ImageCrop W H rect).img_xend - (ImageCrop.ImageCrop W H rect).img_xbegin ∧
      (ImageCrop.ImageCrop W H rect).dest_yend - (ImageCrop.ImageCrop W H rect).dest_ybegin
        = (ImageCrop.ImageCrop W H rect).img_yend - (ImageCrop.ImageCrop W H rect).img_ybegin) ∧
    ((ImageCrop.ImageCrop W H rect).dest_xbegin
        = (ImageCrop.ImageCrop W H rect).img_xbegin - (ImageCrop.borders rect).img_xbegin ∧
      (ImageCrop.ImageCrop W H rect).dest_ybegin
        = (ImageCrop.ImageCrop W H rect).img_ybegin - (ImageCrop.borders rect).img_ybegin) ∧
    ((ImageCrop.ImageCrop W H rect).img_xbegin = max (ImageCrop.borders rect).img_xbegin 0 ∧
      (ImageCrop.ImageCrop W H rect).img_xend
        = min ((ImageCrop.borders rect).img_xbegin + (ImageCrop.borders rect).face_width) W ∧
      (ImageCrop.ImageCrop W H rect).img_ybegin = max (ImageCrop.borders rect).img_ybegin 0 ∧
      (ImageCrop.ImageCrop W H rect).img_yend
        = min ((ImageCrop.borders rect).img_ybegin + (ImageCrop.borders rect).face_height) H) ∧
    ((ImageCrop.ImageCrop W H rect).face_width = (ImageCrop.borders rect).face_width ∧
      (ImageCrop.ImageCrop W H rect).face_height = (ImageCrop.borders rect).face_height) := by
  obtain ⟨hxe, hye, hdx, hdy, hdxe, hdye⟩ := borders_shape rect
  have hsafe := edgeChecks_safe W H (ImageCrop.borders rect) hxe hye hdx hdy hdxe hdye hx hy
  have hface := edgeChecks_face W H (ImageCrop.borders rect)
  unfold ImageCrop.ImageCrop
  rw [hface.1, hface.2]
  obtain ⟨h1, h2, h3, h4, h5, h6, h7⟩ := hsafe
  exact ⟨h1, h2, h3, h4, h5, h6, h7, rfl, rfl⟩

/-- C4 (witness): the rect `tallFace = (10, 0, 30, 50)` in a 100 x 50 image, whose
square crop window `[-5, 46) x [0, 51)` leaves the image on the left and at the bottom. -/
theorem ImageCrop_edge_checks_safe_witness :
    (max (ImageCrop.borders tallFace).img_xbegin 0
      < min ((ImageCrop.borders tallFace).img_xbegin
        + (ImageCrop.borders tallFace).face_width) 100) ∧
    (max (ImageCrop.borders tallFace).img_ybegin 0
      < min ((ImageCrop.borders tallFace).img_ybegin
        + (ImageCrop.borders tallFace).face_height) 50) ∧
    (0 ≤ (ImageCrop.ImageCrop 100 50 tallFace).img_xbegin ∧
      (ImageCrop.ImageCrop 100 50 tallFace).img_xbegin
        ≤ (ImageCrop.ImageCrop 100 50 tallFace).img_xend ∧
      (ImageCrop.ImageCrop 100 50 tallFace).img_xend ≤ 100) ∧
    (0 ≤ (ImageCrop.ImageCrop 100 50 tallFace).img_ybegin ∧
      (ImageCrop.ImageCrop 100 50 tallFace).img_ybegin
        ≤ (ImageCrop.ImageCrop 100 50 tallFace).img_yend ∧
      (ImageCrop.ImageCrop 100 50 tallFace).img_yend ≤ 50) ∧
    (0 ≤ (ImageCrop.ImageCrop 100 50 tallFace).dest_xbegin ∧
      (ImageCrop.ImageCrop 100 50 tallFace).dest_xbegin
        ≤ (ImageCrop.ImageCrop 100 50 tallFace).dest_xend ∧
      (ImageCrop.ImageCrop 100 50 tallFace).dest_xend
        ≤ (ImageCrop.ImageCrop 100 50 tallFace).face_width) ∧
    (0 ≤ (ImageCrop.ImageCrop 100 50 tallFace).dest_ybegin ∧
      (ImageCrop.ImageCrop 100 50 tallFace).dest_ybegin
        ≤ (ImageCrop.ImageCrop 100 50 tallFace).dest_yend ∧
      (ImageCrop.ImageCrop 100 50 tallFace).dest_yend
        ≤ (ImageCrop.ImageCrop 100 50 tallFace).face_height) ∧
    ((ImageCrop.ImageCrop 100 50 tallFace).dest_xend
        - (ImageCrop.ImageCrop 100 50 tallFace).dest_xbegin
        = (ImageCrop.ImageCrop 100 50 tallFace).img_xend
        - (ImageCrop.ImageCrop 100 50 tallFace).img_xbegin ∧
      (ImageCrop.ImageCrop 100 50 tallFace).dest_yend
        - (ImageCrop.ImageCrop 100 50 tallFace).dest_ybegin
        = (ImageCrop.ImageCrop 100 50 tallFace).img_yend
        - (ImageCrop.ImageCrop 100 50 tallFace).img_ybegin) ∧
    ((ImageCrop.ImageCrop 100 50 tallFace).dest_xbegin
        = (ImageCrop.ImageCrop 100 50 tallFace).img_xbegin
        - (ImageCrop.borders tallFace).img_xbegin ∧
      (ImageCrop.ImageCrop 100 50 tallFace).dest_ybegin
        = (ImageCrop.ImageCrop 100 50 tallFace).img_ybegin
        - (ImageCrop.borders tallFace).img_ybegin) ∧
    ((ImageCrop.ImageCrop 100 50 tallFace).img_xbegin = max (ImageCrop.borders tallFace).img_xbegin 0 ∧
      (ImageCrop.ImageCrop 100 50 tallFace).img_xend
        = min ((ImageCrop.borders tallFace).img_xbegin + (ImageCrop.borders tallFace).face_width)
            100 ∧
      (ImageCrop.ImageCrop 100 50 tallFace).img_ybegin = max (ImageCrop.borders tallFace).img_ybegin 0 ∧
      (ImageCrop.ImageCrop 100 50 tallFace).img_yend
        = min ((ImageCrop.borders tallFace).img_ybegin + (ImageCrop.borders tallFace).face_height)
            50) ∧
    ((ImageCrop.ImageCrop 100 50 tallFace).face_width = (ImageCrop.borders tallFace).face_width ∧
      (ImageCrop.ImageCrop 100 50 tallFace).face_height
        = (ImageCrop.borders tallFace).face_height) :=
  ⟨by decide!, by decide!,
    ImageCrop_edge_checks_safe 100 50 tallFace (by decide!) (by decide!)⟩

/-- C5 (evaluation at the failing input).  For an image of width 100 and the face rect
`(10, 20, 50, 40)`, the rect handed to the second detection is `(90, 20, 50, 40)`: the
x-coordinates are reflected but not swapped, so `x1 ≤ x2` fails, and it is not the rect
`(50, 20, 90, 40)`.  The square side that `ImageCrop` derives from it is 20, whereas the
swapped rect, like the original one, gives 40. -/
theorem flippedFace_not_swapped :
    flippedFace 100 ⟨10, 20, 50, 40, 1⟩ = ⟨90, 20, 50, 40, 1⟩ ∧
      flippedFace 100 ⟨10, 20, 50, 40, 1⟩ ≠ ⟨100 - 50, 20, 100 - 10, 40, 1⟩ ∧
      ¬ ((flippedFace 100 ⟨10, 20, 50, 40, 1⟩).x1 ≤ (flippedFace 100 ⟨10, 20, 50, 40, 1⟩).x2) ∧
      (ImageCrop.borders (flippedFace 100 ⟨10, 20, 50, 40, 1⟩)).n = 20 ∧
      (ImageCrop.borders ⟨100 - 50, 20, 100 - 10, 40, 1⟩).n = 40 ∧
      (ImageCrop.borders ⟨10, 20, 50, 40, 1⟩).n = 40 := by
  refine ⟨by decide!, by decide!, by decide!, by decide!, by decide!, by decide!⟩

/-- C6.  For every landmark vector `(lex, ley, rex, rey, nx, ny, mlx, mly, mrx, mry)` and
every width `w`, `FlipLandmarks` reflects every x-coordinate around `w`, keeps every
y-coordinate, exchanges the two eye points and the two mouth points, and keeps the nose in
place. -/
theorem FlipLandmarks_spec (lex ley rex rey nx ny mlx mly mrx mry w : Int) :
    FlipLandmarks [lex, ley, rex, rey, nx, ny, mlx, mly, mrx, mry] w
      = [w - rex, rey, w - lex, ley, w - nx, ny, w - mrx, mry, w - mlx, mly] := by
  simp [FlipLandmarks]

theorem AdjustLandmarks_length (imageCrop : ImageCrop) (landmarks : List ℚ) :
    (AdjustLandmarks imageCrop landmarks).length = 10 := by
  simp [AdjustLandmarks]

theorem DoDetect_length {Mat : Type} (cv : CvOps Mat) (infer : Mat → List ℚ)
    (image : Mat) (face : Rect) (calls : Nat) :
    (DoDetect cv infer image face calls).1.length = 10 := by
  simp [DoDetect, AdjustLandmarks_length]

theorem DoDetect_calls {Mat : Type} (cv : CvOps Mat) (infer : Mat → List ℚ)
    (image : Mat) (face : Rect) (calls : Nat) :
    (DoDetect cv infer image face calls).2 = calls + 1 := by
  simp [DoDetect]

/-- C8.  When `MAX_FLIP_LANDMARKS_DISTANCE` has its disabling value 10000, for every image,
face rect and inference engine, `Detect` returns exactly the 10 values of the single
unmirrored `DoDetect` pass (never the empty vector), the engine is invoked exactly once, and
`CalcFlippedLandmarksDistance` returns 0 without any detection of its own. -/
theorem Detect_disabled {Mat : Type} (cv : CvOps Mat) (infer : Mat → List ℚ)
    (imageData : Mat) (face : Rect) (calls : Nat) :
    MAX_FLIP_LANDMARKS_DISTANCE = 10000 ∧
      (Detect cv infer MAX_FLIP_LANDMARKS_DISTANCE imageData face calls).1
        = (DoDetect cv infer imageData face calls).1 ∧
      (Detect cv infer MAX_FLIP_LANDMARKS_DISTANCE imageData face calls).1.length = 10 ∧
      (Detect cv infer MAX_FLIP_LANDMARKS_DISTANCE imageData face calls).2 = calls + 1 ∧
      ∀ (landmarks : List Int) (k : Nat),
        CalcFlippedLandmarksDistance cv infer MAX_FLIP_LANDMARKS_DISTANCE imageData face
          landmarks k = (some 0, k) := by
  have hcalc : ∀ (landmarks : List Int) (k : Nat),
      CalcFlippedLandmarksDistance cv infer MAX_FLIP_LANDMARKS_DISTANCE imageData face
        landmarks k = (some 0, k) := by
    intro landmarks k
    simp [CalcFlippedLandmarksDistance, MAX_FLIP_LANDMARKS_DISTANCE]
  have hgt : exceeds (some 0) MAX_FLIP_LANDMARKS_DISTANCE = false := by
    simp [exceeds, MAX_FLIP_LANDMARKS_DISTANCE]
  have hdet : Detect cv infer MAX_FLIP_LANDMARKS_DISTANCE imageData face calls
      = ((DoDetect cv infer imageData face calls).1, calls + 1) := by
    simp only [Detect, hcalc, hgt]
    simp [DoDetect_calls]
  refine ⟨rfl, ?_, ?_, ?_, hcalc⟩
  · rw [hdet]
  · rw [hdet]
    exact DoDetect_length cv infer imageData face calls
  · rw [hdet]

end DnetLandmarksDetector
end FRVT_11

namespace FRVT_11

/-! ## The rounded square root -/

theorem roundDouble_nonneg {x : ℚ} (hx : 0 ≤ x) : 0 ≤ roundDouble x := by
  rw [roundDouble_of_nonneg hx]
  have hq := quantum_pos x
  have h0 : ((0 : Int) : ℚ) ≤ x / quantum x := by
    rw [Int.cast_zero]
    exact div_nonneg hx (le_of_lt hq)
  have hr : (0 : ℚ) ≤ (roundHalfEven (x / quantum x) : ℚ) := by
    exact_mod_cast le_roundHalfEven h0
  exact mul_nonneg hr (le_of_lt hq)

/-- The integer chosen by `roundSqrt` is within `1/2` of the real square root. -/
theorem roundSqrt_near (a : ℚ) (ha0 : 0 ≤ a) :
    |((roundSqrt a : ℚ) : ℝ) - Real.sqrt (a : ℝ)| ≤ 1 / 2 := by
  have hn1 : ((Nat.sqrt ⌊a⌋₊ : Nat) : ℚ) ^ 2 ≤ a := by
    have h1 : Nat.sqrt ⌊a⌋₊ * Nat.sqrt ⌊a⌋₊ ≤ ⌊a⌋₊ := Nat.sqrt_le _
    have h2 : ((Nat.sqrt ⌊a⌋₊ * Nat.sqrt ⌊a⌋₊ : Nat) : ℚ) ≤ (⌊a⌋₊ : ℚ) := by exact_mod_cast h1
    have h3 : (⌊a⌋₊ : ℚ) ≤ a := Nat.floor_le ha0
    push_cast at h2
    nlinarith
  have hn2 : a < (((Nat.sqrt ⌊a⌋₊ : Nat) : ℚ) + 1) ^ 2 := by
    have h1 : ⌊a⌋₊ < (Nat.sqrt ⌊a⌋₊ + 1) * (Nat.sqrt ⌊a⌋₊ + 1) := Nat.lt_succ_sqrt _
    have h2 : ((⌊a⌋₊ + 1 : Nat) : ℚ)
        ≤ (((Nat.sqrt ⌊a⌋₊ + 1) * (Nat.sqrt ⌊a⌋₊ + 1) : Nat) : ℚ) := by
      exact_mod_cast h1
    have h3 : a < (⌊a⌋₊ : ℚ) + 1 := Nat.lt_floor_add_one a
    push_cast at h2
    nlinarith
  unfold roundSqrt
  simp only
  generalize Nat.sqrt ⌊a⌋₊ = n at hn1 hn2 ⊢
  have haR : (0 : ℝ) ≤ (a : ℝ) := by exact_mod_cast ha0
  have hn1R : (n : ℝ) ^ 2 ≤ (a : ℝ) := by exact_mod_cast hn1
  have hn2R : (a : ℝ) < ((n : ℝ) + 1) ^ 2 := by exact_mod_cast hn2
  have hlo : (n : ℝ) ≤ Real.sqrt (a : ℝ) := Real.le_sqrt_of_sq_le hn1R
  have hhi : Real.sqrt (a : ℝ) < (n : ℝ) + 1 := by
    rw [Real.sqrt_lt' (by positivity)]
    exact hn2R
  have hdown : |(((n : Nat) : ℚ) : ℝ) - Real.sqrt (a : ℝ)| ≤ 1 / 2 ↔
      Real.sqrt (a : ℝ) ≤ (n : ℝ) + 1 / 2 := by
    rw [abs_le]
    push_cast
    constructor
    · intro h
      linarith [h.1]
    · intro h
      constructor <;> linarith
  have hup : |(((n + 1 : Nat) : ℚ) : ℝ) - Real.sqrt (a : ℝ)| ≤ 1 / 2 ↔
      (n : ℝ) + 1 / 2 ≤ Real.sqrt (a : ℝ) := by
    rw [abs_le]
    push_cast
    constructor
    · intro h
      linarith [h.2]
    · intro h
      constructor <;> linarith
  have hltR : a < ((n : ℚ) + 1 / 2) ^ 2 → Real.sqrt (a : ℝ) ≤ (n : ℝ) + 1 / 2 := by
    intro h
    have hR : (a : ℝ) < ((n : ℝ) + 1 / 2) ^ 2 := by
      have h' := (Rat.cast_lt (K := ℝ)).mpr h
      push_cast at h'
      exact h'
    exact le_of_lt ((Real.sqrt_lt' (by positivity)).mpr hR)
  have hgeR : ¬ a < ((n : ℚ) + 1 / 2) ^ 2 → (n : ℝ) + 1 / 2 ≤ Real.sqrt (a : ℝ) := by
    intro h
    have hR : ((n : ℝ) + 1 / 2) ^ 2 ≤ (a : ℝ) := by
      have h' := (Rat.cast_le (K := ℝ)).mpr (not_lt.mp h)
      push_cast at h'
      exact h'
    exact Real.le_sqrt_of_sq_le hR
  have hleR : ¬ ((n : ℚ) + 1 / 2) ^ 2 < a → Real.sqrt (a : ℝ) ≤ (n : ℝ) + 1 / 2 := by
    intro h
    have hR : (a : ℝ) ≤ ((n : ℝ) + 1 / 2) ^ 2 := by
      have h' := (Rat.cast_le (K := ℝ)).mpr (not_lt.mp h)
      push_cast at h'
      exact h'
    exact Real.sqrt_le_iff.mpr ⟨by positivity, hR⟩
  by_cases c1 : a < ((n : ℚ) + 1 / 2) ^ 2
  · rw [if_pos c1]
    exact hdown.mpr (hltR c1)
  · rw [if_neg c1]
    by_cases c2 : ((n : ℚ) + 1 / 2) ^ 2 < a
    · rw [if_pos c2]
      exact hup.mpr (hgeR c1)
    · rw [if_neg c2]
      by_cases c3 : n % 2 = 0
      · rw [if_pos c3]
        exact hdown.mpr (hleR c2)
      · rw [if_neg c3]
        exact hup.mpr (hgeR c1)

/-- The value of `sqrtDouble` is a natural multiple of the spacing `2^(k-52)` and lies
within half a spacing of the real square root, where `k = floor(log2 s) / 2`. -/
theorem sqrtDouble_nearest (s : ℚ) (hs : 0 ≤ s) :
    ∃ v : ℚ, sqrtDouble s = some v ∧
      (∃ n : Nat, v = (n : ℚ) * (2 : ℚ) ^ (Int.log 2 s / 2 - 52)) ∧
      |(v : ℝ) - Real.sqrt (s : ℝ)| ≤ (2 : ℝ) ^ (Int.log 2 s / 2 - 52) / 2 := by
  rcases eq_or_lt_of_le hs with h0 | hpos
  · refine ⟨0, ?_, ⟨0, by simp⟩, ?_⟩
    · rw [← h0]
      simp [sqrtDouble]
    · rw [← h0]
      simp only [Rat.cast_zero, Real.sqrt_zero, sub_self, abs_zero]
      positivity
  · have hq : (0 : ℚ) < (2 : ℚ) ^ (Int.log 2 s / 2 - 52) := by positivity
    have hqcast : ((2 : ℝ) ^ (Int.log 2 s / 2 - 52))
        = (((2 : ℚ) ^ (Int.log 2 s / 2 - 52) : ℚ) : ℝ) := by
      push_cast
      rfl
    have hdef : sqrtDouble s = some ((roundSqrt (s / ((2 : ℚ) ^ (Int.log 2 s / 2 - 52)
        * (2 : ℚ) ^ (Int.log 2 s / 2 - 52))) : ℚ) * (2 : ℚ) ^ (Int.log 2 s / 2 - 52)) := by
      simp only [sqrtDouble, if_neg (not_lt.mpr hs), if_neg (ne_of_gt hpos)]
    rw [hdef, hqcast]
    generalize (2 : ℚ) ^ (Int.log 2 s / 2 - 52) = q at hq ⊢
    have hqR : (0 : ℝ) < (q : ℝ) := by exact_mod_cast hq
    have hqq : (0 : ℚ) < q * q := mul_pos hq hq
    have ha0 : (0 : ℚ) ≤ s / (q * q) := div_nonneg hs (le_of_lt hqq)
    have hsa : s = s / (q * q) * (q * q) := by
      rw [div_mul_cancel₀ _ (ne_of_gt hqq)]
    have hnear := roundSqrt_near (s / (q * q)) ha0
    have haR : (0 : ℝ) ≤ ((s / (q * q) : ℚ) : ℝ) := by exact_mod_cast ha0
    have hroot : Real.sqrt (s : ℝ) = Real.sqrt ((s / (q * q) : ℚ) : ℝ) * (q : ℝ) := by
      conv_lhs => rw [hsa]
      rw [Rat.cast_mul, Rat.cast_mul q q, Real.sqrt_mul haR, Real.sqrt_mul_self (le_of_lt hqR)]
    refine ⟨_, rfl, ⟨_, rfl⟩, ?_⟩
    rw [hroot, Rat.cast_mul, ← sub_mul, abs_mul, abs_of_pos hqR]
    calc |((roundSqrt (s / (q * q)) : ℚ) : ℝ) - Real.sqrt ((s / (q * q) : ℚ) : ℝ)| * (q : ℝ)
        ≤ 1 / 2 * (q : ℝ) := mul_le_mul_of_nonneg_right hnear (le_of_lt hqR)
      _ = (q : ℝ) / 2 := by ring

namespace DnetLandmarksDetector

/-! ## The flip-consistency gate -/

theorem sumLoop_nonneg (g : Nat → Int) (idx : List Nat) (acc : ℚ) (hacc : 0 ≤ acc) :
    0 ≤ idx.foldl (fun distance i =>
      roundDouble (distance + roundDouble (((g i : Int) : ℚ) ^ 2))) acc := by
  induction idx generalizing acc with
  | nil => simpa using hacc
  | cons i rest ih =>
    rw [List.foldl_cons]
    apply ih
    exact roundDouble_nonneg (add_nonneg hacc (roundDouble_nonneg (sq_nonneg _)))

theorem sumSquares_nonneg (L F : List Int) : 0 ≤ sumSquares L F :=
  sumLoop_nonneg (fun i => L.getD i 0 - F.getD i 0) (List.range 10) 0 (le_refl 0)

/-- Squares of differences of at most `2^24` accumulate without rounding. -/
theorem sumLoop_exact (g : Nat → Int) (idx : List Nat) (m : Nat)
    (hg : ∀ i ∈ idx, |g i| ≤ 2 ^ 24) (hm : m + idx.length * 2 ^ 48 < 2 ^ 53) :
    idx.foldl (fun distance i =>
      roundDouble (distance + roundDouble (((g i : Int) : ℚ) ^ 2))) (m : ℚ)
      = (m : ℚ) + (idx.map (fun i => ((g i : Int) : ℚ) ^ 2)).sum := by
  induction idx generalizing m with
  | nil => simp
  | cons i rest ih =>
    rw [List.length_cons] at hm
    have hgi : |g i| ≤ 2 ^ 24 := hg i (List.mem_cons_self i rest)
    have habs : (g i).natAbs ≤ 2 ^ 24 := by
      have h2 : ((g i).natAbs : Int) ≤ 2 ^ 24 := by
        rw [Int.natCast_natAbs]
        exact hgi
      exact_mod_cast h2
    have hsq : (g i).natAbs ^ 2 ≤ 2 ^ 48 := by
      calc (g i).natAbs ^ 2 ≤ (2 ^ 24) ^ 2 := Nat.pow_le_pow_left habs 2
        _ = 2 ^ 48 := by norm_num
    have hcast : ((g i : Int) : ℚ) ^ 2 = (((g i).natAbs ^ 2 : Nat) : ℚ) := by
      have h : ((g i).natAbs : Int) ^ 2 = (g i) ^ 2 := Int.natAbs_sq (g i)
      have h2 : (((g i).natAbs : Int) : ℚ) ^ 2 = ((g i : Int) : ℚ) ^ 2 := by exact_mod_cast h
      rw [← h2, Int.cast_natCast, Nat.cast_pow]
    have hstep : roundDouble ((m : ℚ) + roundDouble (((g i : Int) : ℚ) ^ 2))
        = ((m + (g i).natAbs ^ 2 : Nat) : ℚ) := by
      rw [hcast, roundDouble_natCast _ (by omega), ← Nat.cast_add,
        roundDouble_natCast _ (by omega)]
    rw [List.foldl_cons, hstep, ih (m + (g i).natAbs ^ 2)
      (fun j hj => hg j (List.mem_cons_of_mem i hj)) (by omega),
      List.map_cons, List.sum_cons, hcast]
    push_cast
    ring

theorem sumSquares_exact (L F : List Int)
    (hb : ∀ i, i < 10 → |L.getD i 0 - F.getD i 0| ≤ 2 ^ 24) :
    sumSquares L F
      = ∑ i in Finset.range 10, (((L.getD i 0 - F.getD i 0 : Int)) : ℚ) ^ 2 := by
  have h := sumLoop_exact (fun i => L.getD i 0 - F.getD i 0) (List.range 10) 0
    (fun i hi => hb i (List.mem_range.mp hi)) (by simp)
  unfold sumSquares
  rw [Nat.cast_zero] at h
  rw [h, zero_add]
  simp only [List.range, List.range.loop, List.map_cons, List.map_nil, List.sum_cons,
    List.sum_nil, Finset.sum_range_succ, Finset.sum_range_zero]
  ring

theorem Detect_enabled {Mat : Type} (cv : CvOps Mat) (infer : Mat → List ℚ) (T : ℚ)
    (imageData : Mat) (face : Rect) (calls : Nat) (hen : T ≠ 10000) :
    Detect cv infer T imageData face calls
      = if exceeds (sqrtDouble (sumSquares (DoDetect cv infer imageData face calls).1
            (FlipLandmarks (DoDetect cv infer (cv.flip imageData)
              (flippedFace (cv.cols imageData) face) (calls + 1)).1 (cv.cols imageData)))) T
        then ([], calls + 2)
        else ((DoDetect cv infer imageData face calls).1, calls + 2) := by
  simp [Detect, CalcFlippedLandmarksDistance, hen, DoDetect]

theorem sqrtDouble_three : sqrtDouble 3 = some (3900231685776981 / 2251799813685248) := by
  have hlog : Int.log 2 (3 : ℚ) = 1 := by decide!
  have hsqrt : Nat.sqrt (3 * 2 ^ 104) = 7800463371553962 := by
    symm
    rw [Nat.eq_sqrt]
    norm_num
  have ha : (3 : ℚ) / ((2 : ℚ) ^ ((0 : Int) - 52) * (2 : ℚ) ^ ((0 : Int) - 52))
      = ((3 * 2 ^ 104 : Nat) : ℚ) := by
    norm_num
  unfold sqrtDouble roundSqrt
  simp only [hlog]
  norm_num [ha, hsqrt]

/-- C7 (counterexample).  On the 200 x 200 gate image with the face rect `(50, 50, 113, 113)`
the primary landmarks are `L = (50, ..., 50)` and the un-mirrored landmarks of the mirrored
detection are `F = (50,50,50,50,50,51,50,51,50,51)`, so the sum of the squared differences is
3.  For the threshold `T = 3900231685776981 / 2^51`, the double nearest to `sqrt 3`, we have
`T ≥ 0`, `T ≠ 10000` and `T < sqrt 3`: the Euclidean distance is strictly greater than `T`.
But `std::sqrt(3.0)` is `T` itself, the test `distance > T` is false, and `Detect` returns `L`,
not the empty vector. -/
theorem Detect_flip_gate_rounding :
    (0 : ℚ) ≤ 3900231685776981 / 2251799813685248 ∧
    (3900231685776981 / 2251799813685248 : ℚ) ≠ 10000 ∧
    (DoDetect testCv gateInfer gateImage gateFace 0).1 = ([50, 50, 50, 50, 50, 50, 50, 50, 50, 50] : List Int) ∧
    FlipLandmarks (DoDetect testCv gateInfer (testCv.flip gateImage)
        (flippedFace (testCv.cols gateImage) gateFace) (0 + 1)).1 (testCv.cols gateImage)
      = ([50, 50, 50, 50, 50, 51, 50, 51, 50, 51] : List Int) ∧
    (∑ i in Finset.range 10,
      (((([50, 50, 50, 50, 50, 50, 50, 50, 50, 50] : List Int).getD i 0 - ([50, 50, 50, 50, 50, 51, 50, 51, 50, 51] : List Int).getD i 0 : Int)) : ℝ) ^ 2) = 3 ∧
    Real.sqrt (∑ i in Finset.range 10,
      (((([50, 50, 50, 50, 50, 50, 50, 50, 50, 50] : List Int).getD i 0 - ([50, 50, 50, 50, 50, 51, 50, 51, 50, 51] : List Int).getD i 0 : Int)) : ℝ) ^ 2)
        > ((3900231685776981 / 2251799813685248 : ℚ) : ℝ) ∧
    sqrtDouble (sumSquares ([50, 50, 50, 50, 50, 50, 50, 50, 50, 50] : List Int) ([50, 50, 50, 50, 50, 51, 50, 51, 50, 51] : List Int))
      = some (3900231685776981 / 2251799813685248) ∧
    (Detect testCv gateInfer (3900231685776981 / 2251799813685248) gateImage gateFace 0).1
      = ([50, 50, 50, 50, 50, 50, 50, 50, 50, 50] : List Int) ∧
    (Detect testCv gateInfer (3900231685776981 / 2251799813685248) gateImage gateFace 0).1
      ≠ [] := by
  have hL : (DoDetect testCv gateInfer gateImage gateFace 0).1 = ([50, 50, 50, 50, 50, 50, 50, 50, 50, 50] : List Int) := by decide!
  have hF : FlipLandmarks (DoDetect testCv gateInfer (testCv.flip gateImage)
      (flippedFace (testCv.cols gateImage) gateFace) (0 + 1)).1 (testCv.cols gateImage)
      = ([50, 50, 50, 50, 50, 51, 50, 51, 50, 51] : List Int) := by decide!
  have hsum : sumSquares ([50, 50, 50, 50, 50, 50, 50, 50, 50, 50] : List Int) ([50, 50, 50, 50, 50, 51, 50, 51, 50, 51] : List Int) = 3 := by decide!
  have hsumR : (∑ i in Finset.range 10,
      (((([50, 50, 50, 50, 50, 50, 50, 50, 50, 50] : List Int).getD i 0 - ([50, 50, 50, 50, 50, 51, 50, 51, 50, 51] : List Int).getD i 0 : Int)) : ℝ) ^ 2) = 3 := by
    simp [Finset.sum_range_succ]
    norm_num
  have hdet : (Detect testCv gateInfer (3900231685776981 / 2251799813685248) gateImage
      gateFace 0).1 = ([50, 50, 50, 50, 50, 50, 50, 50, 50, 50] : List Int) := by
    rw [Detect_enabled testCv gateInfer _ gateImage gateFace 0 (by norm_num), hL, hF, hsum,
      sqrtDouble_three]
    simp [exceeds]
  refine ⟨by norm_num, by norm_num, hL, hF, hsumR, ?_, ?_, hdet, ?_⟩
  · rw [hsumR, gt_iff_lt, Real.lt_sqrt (by positivity)]
    norm_num
  · rw [hsum, sqrtDouble_three]
  · rw [hdet]
    simp

/-- C7 (amended).  With the flip check enabled (threshold `T` other than 10000) and `T ≥ 0`,
for the primary landmark vector `L` and the un-mirrored landmark vector `F` of the mirrored
detection (10 integers each), let `v` be the double that lines 219-221 compute: the double
nearest to the square root of the sum of the squared differences accumulated in `double`
(this sum is exactly `sum over i < 10 of (L[i] - F[i])^2` when no difference exceeds `2^24`
in absolute value, and `v` is a multiple of the spacing of its binade within half a spacing of
the real square root).
`Detect` returns the empty vector if and only if `v` is strictly greater than `T`; when `v` is
equal to `T` or below it, `Detect` returns `L` unchanged. -/
theorem Detect_flip_gate {Mat : Type} (cv : CvOps Mat) (infer : Mat → List ℚ) (T : ℚ)
    (imageData : Mat) (face : Rect) (calls : Nat) (L F : List Int)
    (hL : (DoDetect cv infer imageData face calls).1 = L)
    (hF : FlipLandmarks (DoDetect cv infer (cv.flip imageData)
        (flippedFace (cv.cols imageData) face) (calls + 1)).1 (cv.cols imageData) = F)
    (_hT : 0 ≤ T) (hen : T ≠ 10000) :
    L.length = 10 ∧ F.length = 10 ∧
    ((∀ i, i < 10 → |L.getD i 0 - F.getD i 0| ≤ 2 ^ 24) →
      sumSquares L F
        = ∑ i in Finset.range 10, (((L.getD i 0 - F.getD i 0 : Int)) : ℚ) ^ 2) ∧
    ∃ v : ℚ, sqrtDouble (sumSquares L F) = some v ∧
      (∃ n : Nat, v = (n : ℚ) * (2 : ℚ) ^ (Int.log 2 (sumSquares L F) / 2 - 52)) ∧
      |(v : ℝ) - Real.sqrt ((sumSquares L F : ℚ) : ℝ)|
        ≤ (2 : ℝ) ^ (Int.log 2 (sumSquares L F) / 2 - 52) / 2 ∧
      ((Detect cv infer T imageData face calls).1 = [] ↔ v > T) ∧
      (v ≤ T → (Detect cv infer T imageData face calls).1 = L) := by
  have hlen : L.length = 10 := by
    rw [← hL]
    exact DoDetect_length cv infer imageData face calls
  have hlenF : F.length = 10 := by
    rw [← hF]
    simp [FlipLandmarks]
  have hne : L ≠ [] := by
    intro h
    rw [h] at hlen
    simp at hlen
  obtain ⟨v, hv, hgrid, hnear⟩ := sqrtDouble_nearest (sumSquares L F) (sumSquares_nonneg L F)
  have hdet := Detect_enabled cv infer T imageData face calls hen
  rw [hL, hF, hv] at hdet
  refine ⟨hlen, hlenF, sumSquares_exact L F, v, hv, hgrid, hnear, ?_, ?_⟩
  · rw [hdet]
    by_cases hgt : v > T
    · simp [exceeds, hgt]
    · simp [exceeds, hgt, hne]
  · intro hle
    rw [hdet]
    simp [exceeds, not_lt.mpr hle]

/-- C7 (witness): threshold 3 on the test image, where the two detections, `farPrimary` and
`farUnmirrored`, are far apart. -/
theorem Detect_flip_gate_witness :
    (DoDetect testCv testInfer testImage testFace 0).1 = farPrimary ∧
    FlipLandmarks (DoDetect testCv testInfer (testCv.flip testImage)
        (flippedFace (testCv.cols testImage) testFace) (0 + 1)).1 (testCv.cols testImage)
      = farUnmirrored ∧
    (0 : ℚ) ≤ 3 ∧ (3 : ℚ) ≠ 10000 ∧
    farPrimary.length = 10 ∧ farUnmirrored.length = 10 ∧
    ((∀ i, i < 10 → |farPrimary.getD i 0 - farUnmirrored.getD i 0| ≤ 2 ^ 24) →
      sumSquares farPrimary farUnmirrored
        = ∑ i in Finset.range 10, (((farPrimary.getD i 0 - farUnmirrored.getD i 0 : Int)) : ℚ) ^
            2) ∧
    ∃ v : ℚ, sqrtDouble (sumSquares farPrimary farUnmirrored) = some v ∧
      (∃ n : Nat,
        v = (n : ℚ) * (2 : ℚ) ^ (Int.log 2 (sumSquares farPrimary farUnmirrored) / 2 - 52)) ∧
      |(v : ℝ) - Real.sqrt ((sumSquares farPrimary farUnmirrored : ℚ) : ℝ)|
        ≤ (2 : ℝ) ^ (Int.log 2 (sumSquares farPrimary farUnmirrored) / 2 - 52) / 2 ∧
      ((Detect testCv testInfer 3 testImage testFace 0).1 = [] ↔ v > 3) ∧
      (v ≤ 3 → (Detect testCv testInfer 3 testImage testFace 0).1 = farPrimary) :=
  ⟨by decide!, by decide!, by norm_num, by norm_num,
    Detect_flip_gate testCv testInfer 3 testImage testFace 0 _ _ (by decide!) (by decide!)
      (by norm_num) (by norm_num)⟩

end DnetLandmarksDetector
end FRVT_11

namespace FRVT_11
namespace DnetLandmarksDetector

/-- The landmark mapping of `AdjustLandmarks`, written out for a crop record whose source range
was not changed by the edge checks: it is the mapping of the specification for the side
`face_width = face_height` and the corner `(img_xbegin, img_ybegin)`. -/
theorem AdjustLandmarks_unclamped (W H : Int) (rect : Rect) (o : List ℚ)
    (hx0 : 0 ≤ (ImageCrop.borders rect).img_xbegin)
    (hy0 : 0 ≤ (ImageCrop.borders rect).img_ybegin)
    (hx1 : (ImageCrop.borders rect).img_xend ≤ W)
    (hy1 : (ImageCrop.borders rect).img_yend ≤ H) :
    AdjustLandmarks (ImageCrop.ImageCrop W H rect) o
      = specLandmarks (ImageCrop.borders rect).face_width (ImageCrop.borders rect).img_xbegin
          (ImageCrop.borders rect).img_ybegin o := by
  have hsame : ImageCrop.ImageCrop W H rect = ImageCrop.borders rect := by
    simp [ImageCrop.ImageCrop, ImageCrop.edgeChecks, not_lt.mpr hx0, not_lt.mpr hy0,
      not_lt.mpr hx1, not_lt.mpr hy1]
  obtain ⟨hxe, hye, -, -, -, -⟩ := borders_shape rect
  have hfh : (ImageCrop.borders rect).face_height = (ImageCrop.borders rect).face_width := by
    rw [borders_face_height, borders_face_width]
  rw [hsame]
  simp [AdjustLandmarks, specLandmarks, List.range, List.range.loop, INPUT_SIZE, hxe, hye, hfh]

/-- C2 (evaluation at the failing input).  For a 100 x 50 image and the face rect
`(10, 0, 30, 50)` the un-clamped square crop has side 51 and top-left corner `(-5, 0)`; the
edge checks clamp the source range to `[0, 46) x [0, 50)`.  With every model output equal to
`1/2`, `AdjustLandmarks` returns x = 23 for every point, computed from the clamped width 46
and the clamped origin 0, whereas the mapping through the side 51 and the corner `(-5, 0)`
gives x = 20. -/
theorem AdjustLandmarks_clamped_crop :
    (ImageCrop.borders ⟨10, 0, 30, 50, 1⟩).face_width = 51 ∧
      (ImageCrop.borders ⟨10, 0, 30, 50, 1⟩).face_height = 51 ∧
      (ImageCrop.borders ⟨10, 0, 30, 50, 1⟩).img_xbegin = -5 ∧
      (ImageCrop.borders ⟨10, 0, 30, 50, 1⟩).img_ybegin = 0 ∧
      (ImageCrop.ImageCrop 100 50 ⟨10, 0, 30, 50, 1⟩).img_xbegin = 0 ∧
      (ImageCrop.ImageCrop 100 50 ⟨10, 0, 30, 50, 1⟩).img_xend = 46 ∧
      AdjustLandmarks (ImageCrop.ImageCrop 100 50 ⟨10, 0, 30, 50, 1⟩) (List.replicate 88 (1 / 2))
        = [23, 25, 23, 25, 23, 25, 23, 25, 23, 25] ∧
      specLandmarks 51 (-5) 0 (List.replicate 88 (1 / 2))
        = [20, 25, 20, 25, 20, 25, 20, 25, 20, 25] := by
  refine ⟨by decide!, by decide!, by decide!, by decide!, by decide!, by decide!, by decide!,
    by decide!⟩

end DnetLandmarksDetector
end FRVT_11

namespace FRVT_11
namespace SphereFaceRecognizer

/-! ## The recognition crop window -/

theorem foldl_min_spec (xs : List Int) (x : Int) :
    (xs.foldl (fun smallest v => if v < smallest then v else smallest) x ≤ x ∧
      ∀ v ∈ xs, xs.foldl (fun smallest v => if v < smallest then v else smallest) x ≤ v) ∧
    (xs.foldl (fun smallest v => if v < smallest then v else smallest) x = x ∨
      xs.foldl (fun smallest v => if v < smallest then v else smallest) x ∈ xs) := by
  induction xs generalizing x with
  | nil => simp
  | cons y ys ih =>
    simp only [List.foldl_cons, List.mem_cons, forall_eq_or_imp]
    by_cases hlt : y < x
    · simp only [if_pos hlt]
      obtain ⟨⟨h1, h2⟩, h3⟩ := ih y
      refine ⟨⟨by omega, h1, h2⟩, ?_⟩
      rcases h3 with h3 | h3
      · exact Or.inr (Or.inl h3)
      · exact Or.inr (Or.inr h3)
    · simp only [if_neg hlt]
      obtain ⟨⟨h1, h2⟩, h3⟩ := ih x
      refine ⟨⟨h1, by omega, h2⟩, ?_⟩
      rcases h3 with h3 | h3
      · exact Or.inl h3
      · exact Or.inr (Or.inr h3)

theorem foldl_max_spec (xs : List Int) (x : Int) :
    (x ≤ xs.foldl (fun largest v => if largest < v then v else largest) x ∧
      ∀ v ∈ xs, v ≤ xs.foldl (fun largest v => if largest < v then v else largest) x) ∧
    (xs.foldl (fun largest v => if largest < v then v else largest) x = x ∨
      xs.foldl (fun largest v => if largest < v then v else largest) x ∈ xs) := by
  induction xs generalizing x with
  | nil => simp
  | cons y ys ih =>
    simp only [List.foldl_cons, List.mem_cons, forall_eq_or_imp]
    by_cases hlt : x < y
    · simp only [if_pos hlt]
      obtain ⟨⟨h1, h2⟩, h3⟩ := ih y
      refine ⟨⟨by omega, h1, h2⟩, ?_⟩
      rcases h3 with h3 | h3
      · exact Or.inr (Or.inl h3)
      · exact Or.inr (Or.inr h3)
    · simp only [if_neg hlt]
      obtain ⟨⟨h1, h2⟩, h3⟩ := ih x
      refine ⟨⟨h1, by omega, h2⟩, ?_⟩
      rcases h3 with h3 | h3
      · exact Or.inl h3
      · exact Or.inr (Or.inr h3)

theorem minElement_le {l : List Int} {v : Int} (hv : v ∈ l) : minElement l ≤ v := by
  cases l with
  | nil => simp at hv
  | cons x xs =>
    obtain ⟨⟨h1, h2⟩, -⟩ := foldl_min_spec xs x
    rcases List.mem_cons.mp hv with rfl | hmem
    · exact h1
    · exact h2 v hmem

theorem minElement_mem {l : List Int} (hl : l ≠ []) : minElement l ∈ l := by
  cases l with
  | nil => exact absurd rfl hl
  | cons x xs =>
    obtain ⟨-, h3⟩ := foldl_min_spec xs x
    rcases h3 with h3 | h3
    · exact List.mem_cons.mpr (Or.inl h3)
    · exact List.mem_cons.mpr (Or.inr h3)

theorem le_maxElement {l : List Int} {v : Int} (hv : v ∈ l) : v ≤ maxElement l := by
  cases l with
  | nil => simp at hv
  | cons x xs =>
    obtain ⟨⟨h1, h2⟩, -⟩ := foldl_max_spec xs x
    rcases List.mem_cons.mp hv with rfl | hmem
    · exact h1
    · exact h2 v hmem

theorem maxElement_mem {l : List Int} (hl : l ≠ []) : maxElement l ∈ l := by
  cases l with
  | nil => exact absurd rfl hl
  | cons x xs =>
    obtain ⟨-, h3⟩ := foldl_max_spec xs x
    rcases h3 with h3 | h3
    · exact List.mem_cons.mpr (Or.inl h3)
    · exact List.mem_cons.mpr (Or.inr h3)

theorem truncToInt_margin_nonneg {w : Int} (hw : 0 ≤ w) : 0 ≤ truncToInt ((w : ℚ) * 0.75) := by
  apply truncToInt_nonneg
  have : (0 : ℚ) ≤ (w : ℚ) := by exact_mod_cast hw
  positivity

/-- C10.  For every image of size `cols x rows` and every five landmarks that all lie inside
it, the window computed by `CropImage` is `x1 = max(0, xMin - trunc(0.75 * w))`,
`x2 = min(cols, xMax + trunc(0.75 * w))`, `y1 = max(0, yMin - trunc(0.75 * h))`,
`y2 = min(rows, yMax + trunc(0.75 * h))` with `w = xMax - xMin`, `h = yMax - yMin` over the
bounding box of the landmarks, and `0 ≤ x1 ≤ xMin ≤ xMax ≤ x2 ≤ cols`,
`0 ≤ y1 ≤ yMin ≤ yMax ≤ y2 ≤ rows`. -/
theorem CropImage_window {Mat : Type} (cv : CvOps Mat) (image : Mat) (landmarks : List Int)
    (_hlen : landmarks.length = 10)
    (hin : ∀ k, k < 5 →
      (0 ≤ landmarks.getD (2 * k) 0 ∧ landmarks.getD (2 * k) 0 ≤ cv.cols image) ∧
      (0 ≤ landmarks.getD (2 * k + 1) 0 ∧ landmarks.getD (2 * k + 1) 0 ≤ cv.rows image)) :
    ∃ xMin xMax yMin yMax : Int,
      ((∃ k, k < 5 ∧ landmarks.getD (2 * k) 0 = xMin) ∧
        (∃ k, k < 5 ∧ landmarks.getD (2 * k) 0 = xMax) ∧
        (∃ k, k < 5 ∧ landmarks.getD (2 * k + 1) 0 = yMin) ∧
        (∃ k, k < 5 ∧ landmarks.getD (2 * k + 1) 0 = yMax) ∧
        ∀ k, k < 5 →
          (xMin ≤ landmarks.getD (2 * k) 0 ∧ landmarks.getD (2 * k) 0 ≤ xMax) ∧
          (yMin ≤ landmarks.getD (2 * k + 1) 0 ∧ landmarks.getD (2 * k + 1) 0 ≤ yMax)) ∧
      ((CropImage cv image landmarks).x1
          = max 0 (xMin - truncToInt (0.75 * ((xMax - xMin : Int) : ℚ))) ∧
        (CropImage cv image landmarks).x2
          = min (cv.cols image) (xMax + truncToInt (0.75 * ((xMax - xMin : Int) : ℚ))) ∧
        (CropImage cv image landmarks).y1
          = max 0 (yMin - truncToInt (0.75 * ((yMax - yMin : Int) : ℚ))) ∧
        (CropImage cv image landmarks).y2
          = min (cv.rows image) (yMax + truncToInt (0.75 * ((yMax - yMin : Int) : ℚ)))) ∧
      (0 ≤ (CropImage cv image landmarks).x1 ∧ (CropImage cv image landmarks).x1 ≤ xMin ∧
        xMin ≤ xMax ∧ xMax ≤ (CropImage cv image landmarks).x2 ∧
        (CropImage cv image landmarks).x2 ≤ cv.cols image) ∧
      (0 ≤ (CropImage cv image landmarks).y1 ∧ (CropImage cv image landmarks).y1 ≤ yMin ∧
        yMin ≤ yMax ∧ yMax ≤ (CropImage cv image landmarks).y2 ∧
        (CropImage cv image landmarks).y2 ≤ cv.rows image) := by
  have hxmem : ∀ v, v ∈ (List.range 5).map (fun k => landmarks.getD (2 * k) 0) ↔
      ∃ k, k < 5 ∧ landmarks.getD (2 * k) 0 = v := by
    intro v
    simp only [List.mem_map, List.mem_range]
  have hymem : ∀ v, v ∈ (List.range 5).map (fun k => landmarks.getD (2 * k + 1) 0) ↔
      ∃ k, k < 5 ∧ landmarks.getD (2 * k + 1) 0 = v := by
    intro v
    simp only [List.mem_map, List.mem_range]
  have hxne : (List.range 5).map (fun k => landmarks.getD (2 * k) 0) ≠ [] := by
    simp [List.range, List.range.loop]
  have hyne : (List.range 5).map (fun k => landmarks.getD (2 * k + 1) 0) ≠ [] := by
    simp [List.range, List.range.loop]
  have hxMin := (hxmem _).mp (minElement_mem hxne)
  have hxMax := (hxmem _).mp (maxElement_mem hxne)
  have hyMin := (hymem _).mp (minElement_mem hyne)
  have hyMax := (hymem _).mp (maxElement_mem hyne)
  have hbox : ∀ k, k < 5 →
      (minElement ((List.range 5).map (fun k => landmarks.getD (2 * k) 0))
          ≤ landmarks.getD (2 * k) 0 ∧
        landmarks.getD (2 * k) 0
          ≤ maxElement ((List.range 5).map (fun k => landmarks.getD (2 * k) 0))) ∧
      (minElement ((List.range 5).map (fun k => landmarks.getD (2 * k + 1) 0))
          ≤ landmarks.getD (2 * k + 1) 0 ∧
        landmarks.getD (2 * k + 1) 0
          ≤ maxElement ((List.range 5).map (fun k => landmarks.getD (2 * k + 1) 0))) := by
    intro k hk
    exact ⟨⟨minElement_le ((hxmem _).mpr ⟨k, hk, rfl⟩), le_maxElement ((hxmem _).mpr ⟨k, hk, rfl⟩)⟩,
      ⟨minElement_le ((hymem _).mpr ⟨k, hk, rfl⟩), le_maxElement ((hymem _).mpr ⟨k, hk, rfl⟩)⟩⟩
  refine ⟨minElement ((List.range 5).map (fun k => landmarks.getD (2 * k) 0)),
    maxElement ((List.range 5).map (fun k => landmarks.getD (2 * k) 0)),
    minElement ((List.range 5).map (fun k => landmarks.getD (2 * k + 1) 0)),
    maxElement ((List.range 5).map (fun k => landmarks.getD (2 * k + 1) 0)),
    ⟨hxMin, hxMax, hyMin, hyMax, hbox⟩, ?_, ?_, ?_⟩
  · refine ⟨?_, ?_, ?_, ?_⟩ <;> simp only [CropImage, mul_comm (0.75 : ℚ)]
  · obtain ⟨k1, hk1, e1⟩ := hxMin
    obtain ⟨k2, hk2, e2⟩ := hxMax
    have b1 := (hin k1 hk1).1
    have b2 := (hin k2 hk2).1
    have b3 := (hbox k1 hk1).1
    rw [e1] at b1 b3
    rw [e2] at b2
    have ht := truncToInt_margin_nonneg (sub_nonneg.mpr b3.2)
    simp only [CropImage]
    omega
  · obtain ⟨k1, hk1, e1⟩ := hyMin
    obtain ⟨k2, hk2, e2⟩ := hyMax
    have b1 := (hin k1 hk1).2
    have b2 := (hin k2 hk2).2
    have b3 := (hbox k1 hk1).2
    rw [e1] at b1 b3
    rw [e2] at b2
    have ht := truncToInt_margin_nonneg (sub_nonneg.mpr b3.2)
    simp only [CropImage]
    omega

/-- C10 (witness): five landmarks inside the 100 x 100 test image. -/
theorem CropImage_window_witness :
    (testLandmarks.length = 10) ∧
    (∀ k, k < 5 →
      (0 ≤ testLandmarks.getD (2 * k) 0 ∧ testLandmarks.getD (2 * k) 0 ≤ testCv.cols testImage) ∧
      (0 ≤ testLandmarks.getD (2 * k + 1) 0 ∧ testLandmarks.getD (2 * k + 1) 0 ≤ testCv.rows testImage)) ∧
    ∃ xMin xMax yMin yMax : Int,
      ((∃ k, k < 5 ∧ testLandmarks.getD (2 * k) 0 = xMin) ∧
        (∃ k, k < 5 ∧ testLandmarks.getD (2 * k) 0 = xMax) ∧
        (∃ k, k < 5 ∧ testLandmarks.getD (2 * k + 1) 0 = yMin) ∧
        (∃ k, k < 5 ∧ testLandmarks.getD (2 * k + 1) 0 = yMax) ∧
        ∀ k, k < 5 →
          (xMin ≤ testLandmarks.getD (2 * k) 0 ∧ testLandmarks.getD (2 * k) 0 ≤ xMax) ∧
          (yMin ≤ testLandmarks.getD (2 * k + 1) 0 ∧ testLandmarks.getD (2 * k + 1) 0 ≤ yMax)) ∧
      ((CropImage testCv testImage testLandmarks).x1
          = max 0 (xMin - truncToInt (0.75 * ((xMax - xMin : Int) : ℚ))) ∧
        (CropImage testCv testImage testLandmarks).x2
          = min (testCv.cols testImage) (xMax + truncToInt (0.75 * ((xMax - xMin : Int) : ℚ))) ∧
        (CropImage testCv testImage testLandmarks).y1
          = max 0 (yMin - truncToInt (0.75 * ((yMax - yMin : Int) : ℚ))) ∧
        (CropImage testCv testImage testLandmarks).y2
          = min (testCv.rows testImage) (yMax + truncToInt (0.75 * ((yMax - yMin : Int) : ℚ)))) ∧
      (0 ≤ (CropImage testCv testImage testLandmarks).x1 ∧ (CropImage testCv testImage testLandmarks).x1 ≤ xMin ∧
        xMin ≤ xMax ∧ xMax ≤ (CropImage testCv testImage testLandmarks).x2 ∧
        (CropImage testCv testImage testLandmarks).x2 ≤ testCv.cols testImage) ∧
      (0 ≤ (CropImage testCv testImage testLandmarks).y1 ∧ (CropImage testCv testImage testLandmarks).y1 ≤ yMin ∧
        yMin ≤ yMax ∧ yMax ≤ (CropImage testCv testImage testLandmarks).y2 ∧
        (CropImage testCv testImage testLandmarks).y2 ≤ testCv.rows testImage) :=
  ⟨by decide, by decide,
    CropImage_window testCv testImage testLandmarks (by decide) (by decide)⟩

end SphereFaceRecognizer
end FRVT_11

namespace FRVT_11
namespace SphereFaceRecognizer

/-! ## Descriptor fusion -/

/-- The copy loop of lines 94-97 after `k` iterations. -/
theorem copyLoop_spec (f1 f2 init : List ℚ) (hinit : init.length = 1024) (k : Nat)
    (hk : k ≤ 512) :
    ((List.range k).foldl (fun features i =>
        (features.set i (f1.getD i 0)).set (i + 512) (f2.getD i 0)) init).length = 1024 ∧
    ∀ j, ((List.range k).foldl (fun features i =>
        (features.set i (f1.getD i 0)).set (i + 512) (f2.getD i 0)) init)[j]?
      = if j < k then some (f1.getD j 0)
        else if 512 ≤ j ∧ j < 512 + k then some (f2.getD (j - 512) 0)
        else init[j]? := by
  induction k with
  | zero =>
    refine ⟨by simpa using hinit, fun j => ?_⟩
    have h1 : ¬ (512 ≤ j ∧ j < 512 + 0) := by omega
    simp [h1]
  | succ k ih =>
    obtain ⟨hlen, hget⟩ := ih (by omega)
    rw [List.range_succ, List.foldl_append]
    simp only [List.foldl_cons, List.foldl_nil]
    refine ⟨by rw [List.length_set, List.length_set]; exact hlen, fun j => ?_⟩
    rw [List.getElem?_set, List.getElem?_set, List.length_set, hlen, hget j]
    by_cases e1 : k + 512 = j
    · subst e1
      have h1 : k + 512 < 1024 := by omega
      have h2 : ¬ (k + 512 < k + 1) := by omega
      have h3 : 512 ≤ k + 512 ∧ k + 512 < 512 + (k + 1) := by omega
      simp [h1, h2, h3]
    · by_cases e2 : k = j
      · subst e2
        have h1 : k < 1024 := by omega
        simp [e1, h1]
      · rw [if_neg e1, if_neg e2]
        by_cases h1 : j < k
        · have h2 : j < k + 1 := by omega
          simp [h1, h2]
        · have h2 : ¬ j < k + 1 := by omega
          by_cases h3 : 512 ≤ j ∧ j < 512 + k
          · have h4 : 512 ≤ j ∧ j < 512 + (k + 1) := by omega
            simp [h1, h2, h3, h4]
          · have h4 : ¬ (512 ≤ j ∧ j < 512 + (k + 1)) := by omega
            simp [h1, h2, h3, h4]

/-- C9.  For every image, every landmark vector and every inference function `f` that returns
at least 512 values, `Infer` returns a vector of exactly 1024 values in which, for every
`i < 512`, element `i` is `f(c)[i]` and element `512 + i` is `f(mirror(c))[i]`, where `c` is the
normalized crop and `mirror` the horizontal flip. -/
theorem Infer_layout {Mat : Type} (cv : CvOps Mat) (f : Mat → List ℚ) (imageData : Mat)
    (landmarks : List Int) (hf : ∀ m, 512 ≤ (f m).length) :
    (Infer cv f imageData landmarks).length = 1024 ∧
    ∀ i, i < 512 →
      (∃ a, (f (NormalizeImage cv imageData landmarks))[i]? = some a ∧
        (Infer cv f imageData landmarks)[i]? = some a) ∧
      (∃ b, (f (cv.flip (NormalizeImage cv imageData landmarks)))[i]? = some b ∧
        (Infer cv f imageData landmarks)[512 + i]? = some b) := by
  obtain ⟨hlen, hget⟩ := copyLoop_spec (f (NormalizeImage cv imageData landmarks))
    (f (cv.flip (NormalizeImage cv imageData landmarks))) (List.replicate 1024 0)
    (List.length_replicate 1024 0) 512 (le_refl 512)
  refine ⟨hlen, fun i hi => ⟨?_, ?_⟩⟩
  · have h1 : i < (f (NormalizeImage cv imageData landmarks)).length :=
      lt_of_lt_of_le hi (hf _)
    refine ⟨(f (NormalizeImage cv imageData landmarks))[i], List.getElem?_eq_getElem h1, ?_⟩
    unfold Infer
    rw [hget i, if_pos hi, List.getD_eq_getElem?_getD, List.getElem?_eq_getElem h1]
    rfl
  · have h1 : i < (f (cv.flip (NormalizeImage cv imageData landmarks))).length :=
      lt_of_lt_of_le hi (hf _)
    refine ⟨(f (cv.flip (NormalizeImage cv imageData landmarks)))[i],
      List.getElem?_eq_getElem h1, ?_⟩
    have h2 : ¬ (512 + i < 512) := by omega
    have h3 : 512 ≤ 512 + i ∧ 512 + i < 512 + 512 := by omega
    unfold Infer
    rw [hget (512 + i), if_neg h2, if_pos h3, List.getD_eq_getElem?_getD, Nat.add_sub_cancel_left,
      List.getElem?_eq_getElem h1]
    rfl

/-- C9 (witness): the tagged test engine on the test image and landmarks. -/
theorem Infer_layout_witness :
    (∀ m, 512 ≤ (testFeatures m).length) ∧
    (Infer testCv testFeatures testImage testLandmarks).length = 1024 ∧
    ∀ i, i < 512 →
      (∃ a, (testFeatures (NormalizeImage testCv testImage testLandmarks))[i]? = some a ∧
        (Infer testCv testFeatures testImage testLandmarks)[i]? = some a) ∧
      (∃ b, (testFeatures (testCv.flip (NormalizeImage testCv testImage testLandmarks)))[i]?
          = some b ∧
        (Infer testCv testFeatures testImage testLandmarks)[512 + i]? = some b) :=
  ⟨fun m => le_of_eq (List.length_replicate 512 ((m.tag : ℚ) + 1)).symm,
    Infer_layout testCv testFeatures testImage testLandmarks
      (fun m => le_of_eq (List.length_replicate 512 ((m.tag : ℚ) + 1)).symm)⟩

end SphereFaceRecognizer
end FRVT_11

namespace FRVT_11
namespace fatest

/-! ## TPR at a 1-in-N FPR point -/

/-- The counting loop of lines 97-101: below `2^53` every `++tp` is exact. -/
theorem countLoop_spec (t : ℚ) (s : List ℚ) (m : Nat) (hm : m + s.length < 2 ^ 53) :
    s.foldl (fun tp g => if g > t then roundDouble (tp + 1) else tp) (m : ℚ)
      = ((m + (s.filter (fun g => decide (g > t))).length : Nat) : ℚ) := by
  induction s generalizing m with
  | nil => simp
  | cons g gs ih =>
    rw [List.length_cons] at hm
    rw [List.foldl_cons]
    by_cases hg : g > t
    · have hstep : roundDouble ((m : ℚ) + 1) = ((m + 1 : Nat) : ℚ) := by
        have h := roundDouble_natCast (m + 1) (by omega)
        rw [← h]
        push_cast
        rfl
      rw [if_pos hg, hstep, ih (m + 1) (by omega)]
      simp [hg]
      ring
    · rw [if_neg hg, ih m (by omega)]
      simp [hg]

/-- Sorting ascending and reversing gives the scores in descending order. -/
theorem sortedDescending (d : List ℚ) :
    ((d.insertionSort (fun a b => a ≤ b)).reverse).Perm d ∧
      ((d.insertionSort (fun a b => a ≤ b)).reverse).Sorted (fun a b => a ≥ b) := by
  refine ⟨(List.reverse_perm _).trans (List.perm_insertionSort _ d), ?_⟩
  have hs : (d.insertionSort (fun a b => a ≤ b)).Sorted (fun a b => a ≤ b) :=
    List.sorted_insertionSort (fun a b => a ≤ b) d
  unfold List.Sorted
  rw [List.pairwise_reverse]
  exact hs

/-- The border index of line 92 for a non-empty impostor list and a double divider above 1:
it is an index of the list. -/
theorem borderIndex_spec (N : ℚ) (len : Nat) (hlen : 0 < len) (hlt : len < 2 ^ 53)
    (hNd : roundDouble N = N) (hN : 1 < N) :
    0 ≤ truncToInt (roundDouble ((len : ℚ) / N)) ∧
      truncToInt (roundDouble ((len : ℚ) / N)) < (len : Int) := by
  have hN0 : (0 : ℚ) < N := lt_trans zero_lt_one hN
  have hl0 : (0 : ℚ) < (len : ℚ) := by exact_mod_cast hlen
  have hl1 : (1 : ℚ) ≤ (len : ℚ) := by exact_mod_cast hlen
  have hx : (0 : ℚ) < (len : ℚ) / N := div_pos hl0 hN0
  have hxN : (len : ℚ) / N * N = (len : ℚ) := div_mul_cancel₀ _ (ne_of_gt hN0)
  have hxlt : (len : ℚ) / N < (len : ℚ) := by
    rw [div_lt_iff₀ hN0]
    nlinarith
  have h53 : (len : ℚ) / N < 2 ^ 53 := lt_trans hxlt (by exact_mod_cast hlt)
  have hNge := double_gt_one hNd hN
  have hgap : (len : ℚ) / N / 2 ^ 52 ≤ ((len : Int) : ℚ) - (len : ℚ) / N := by
    rw [Int.cast_natCast]
    have h1 : (len : ℚ) / N * (1 / 2 ^ 52) ≤ (len : ℚ) / N * (N - 1) :=
      mul_le_mul_of_nonneg_left (by linarith) (le_of_lt hx)
    have h2 : (len : ℚ) / N * (N - 1) = (len : ℚ) - (len : ℚ) / N := by
      rw [mul_sub, hxN, mul_one]
    rw [div_eq_mul_one_div ((len : ℚ) / N) (2 ^ 52)]
    linarith
  have hhalf : (len : ℚ) / N < 1 / 2 → 1 / 2 ≤ ((len : Int) : ℚ) - (len : ℚ) / N := by
    intro h
    rw [Int.cast_natCast]
    linarith
  obtain ⟨h0, hK⟩ := roundDouble_lt_of_gap hx h53 (len : Int) hgap hhalf
  rw [truncToInt_eq_floor h0]
  exact ⟨Int.floor_nonneg.mpr h0, Int.floor_lt.mpr hK⟩

/-- For a divider that is a natural number the rounded quotient truncates to the integer
quotient. -/
theorem borderIndex_natCast (m len : Nat) (hm : 0 < m) (hlen : 0 < len) (hlt : len < 2 ^ 52) :
    truncToInt (roundDouble ((len : ℚ) / (m : ℚ))) = ⌊(len : ℚ) / (m : ℚ)⌋ := by
  have hm0 : (0 : ℚ) < (m : ℚ) := by exact_mod_cast hm
  have hl0 : (0 : ℚ) < (len : ℚ) := by exact_mod_cast hlen
  have hx : (0 : ℚ) < (len : ℚ) / (m : ℚ) := div_pos hl0 hm0
  have hm1 : (1 : ℚ) ≤ (m : ℚ) := by exact_mod_cast hm
  have hxle : (len : ℚ) / (m : ℚ) ≤ (len : ℚ) := div_le_self (le_of_lt hl0) hm1
  have hl52 : (len : ℚ) < 2 ^ 52 := by exact_mod_cast hlt
  have h53 : (len : ℚ) / (m : ℚ) < 2 ^ 53 := by
    have : (2 : ℚ) ^ 52 ≤ 2 ^ 53 := by norm_num
    linarith
  have hb := binade_le_of_lt hx h53
  have hfloor : ⌊(len : ℚ) / (m : ℚ)⌋ = ((len / m : Nat) : Int) := by
    rw [← Nat.floor_div_eq_div (α := ℚ), Int.natCast_floor_eq_floor (le_of_lt hx)]
  have hlow : ((⌊(len : ℚ) / (m : ℚ)⌋ : Int) : ℚ) ≤ (len : ℚ) / (m : ℚ) := Int.floor_le _
  have hupNat : len + 1 ≤ m * (len / m + 1) := by
    have := Nat.lt_mul_div_succ len hm
    omega
  have hup : (len : ℚ) / (m : ℚ) + 1 / (m : ℚ) ≤ ((⌊(len : ℚ) / (m : ℚ)⌋ + 1 : Int) : ℚ) := by
    rw [hfloor, ← add_div, div_le_iff₀ hm0]
    generalize len / m = k at hupNat
    have : ((len + 1 : Nat) : ℚ) ≤ ((m * (k + 1) : Nat) : ℚ) := by exact_mod_cast hupNat
    push_cast at this ⊢
    linarith
  have hgap : (len : ℚ) / (m : ℚ) / 2 ^ 52
      ≤ ((⌊(len : ℚ) / (m : ℚ)⌋ + 1 : Int) : ℚ) - (len : ℚ) / (m : ℚ) := by
    have h1 : (len : ℚ) / (m : ℚ) / 2 ^ 52 ≤ 1 / (m : ℚ) := by
      rw [div_div, div_le_div_iff₀ (by positivity) hm0]
      nlinarith
    linarith
  have hhalf : (len : ℚ) / (m : ℚ) < 1 / 2 →
      1 / 2 ≤ ((⌊(len : ℚ) / (m : ℚ)⌋ + 1 : Int) : ℚ) - (len : ℚ) / (m : ℚ) := by
    intro h
    have h0 : (0 : ℚ) ≤ ((⌊(len : ℚ) / (m : ℚ)⌋ : Int) : ℚ) := by
      exact_mod_cast Int.floor_nonneg.mpr (le_of_lt hx)
    push_cast
    linarith
  obtain ⟨h0, hK⟩ := roundDouble_lt_of_gap hx h53 (⌊(len : ℚ) / (m : ℚ)⌋ + 1) hgap hhalf
  have hge := le_roundDouble hx hb ⌊(len : ℚ) / (m : ℚ)⌋ hlow
  rw [truncToInt_eq_floor h0, Int.floor_eq_iff]
  exact ⟨hge, by push_cast at hK; exact hK⟩

/-- C1 (counterexample).  The double nearest to `5/3` is `N = 7505999378950827 / 2^52 > 1`.
For `d = [10,8,6,4,2]` and `s = [11,9,5]` the claim takes position `floor(5 / N) = 2`,
threshold 6 and the value `2/3`; the code divides in `double`, where `5 / N` rounds to `3.0`,
reads the threshold 4 at position 3 and returns 1.  In the scenario with `N = 10` the code
returns the double nearest to `1/3`, which is not `1/3`. -/
theorem CalculateTPR_not_floor :
    roundDouble (5 / 3) = 7505999378950827 / 4503599627370496 ∧
    roundDouble (7505999378950827 / 4503599627370496) = 7505999378950827 / 4503599627370496 ∧
    (1 : ℚ) < 7505999378950827 / 4503599627370496 ∧
    ([10, 8, 6, 4, 2] : List ℚ) ≠ [] ∧ ([11, 9, 5] : List ℚ) ≠ [] ∧
    ⌊(([10, 8, 6, 4, 2] : List ℚ).length : ℚ) / (7505999378950827 / 4503599627370496)⌋ = 2 ∧
    ([10, 8, 6, 4, 2] : List ℚ)[2]? = some 6 ∧
    ((([11, 9, 5] : List ℚ).filter (fun g => decide (g > 6))).length : ℚ)
        / (([11, 9, 5] : List ℚ).length : ℚ) = 2 / 3 ∧
    roundDouble ((([10, 8, 6, 4, 2] : List ℚ).length : ℚ)
        / (7505999378950827 / 4503599627370496)) = 3 ∧
    CalculateTPR (7505999378950827 / 4503599627370496) [10, 8, 6, 4, 2] [11, 9, 5] = some 1 ∧
    CalculateTPR 10 [10, 8, 6, 4, 2] [11, 9, 5] = some (6004799503160661 / 18014398509481984) ∧
    (6004799503160661 / 18014398509481984 : ℚ) ≠ 1 / 3 := by
  refine ⟨by decide!, by decide!, by norm_num, by simp, by simp, ?_, rfl, ?_, by decide!,
    by decide!, by decide!, by norm_num⟩
  · rw [Int.floor_eq_iff]
    norm_num
  · norm_num

/-- C1 (amended).  For every non-empty list of impostor scores `d` and every non-empty list of
genuine scores `s`, each of fewer than `2^31` elements, and every double divider `N > 1`,
`CalculateTPR(N, d, s)` returns the double nearest to `|{g in s : g > t}| / |s|`, where `t` is
the element of `d` sorted in descending order at the 0-indexed position obtained by
truncating the double quotient `|d| / N`; this position is `floor(|d| / N)` whenever `N` is an
integer.  In particular, for `d = [10,8,6,4,2]`, `N = 10` and `s = [11,9,5]` the position is
0, the threshold is 10 and the result is the double nearest to `1/3`. -/
theorem CalculateTPR_spec (N : ℚ) (d s : List ℚ) (hd : d ≠ []) (hs : s ≠ [])
    (hdlen : d.length < 2 ^ 31) (hslen : s.length < 2 ^ 31)
    (hNd : roundDouble N = N) (hN : 1 < N) :
    (∃ (l : List ℚ) (t : ℚ), l.Perm d ∧ l.Sorted (fun a b => a ≥ b) ∧
      0 ≤ truncToInt (roundDouble ((d.length : ℚ) / N)) ∧
      l[(truncToInt (roundDouble ((d.length : ℚ) / N))).toNat]? = some t ∧
      CalculateTPR N d s
        = some (roundDouble (((s.filter (fun g => decide (g > t))).length : ℚ)
            / (s.length : ℚ)))) ∧
    (∀ m : Nat, N = (m : ℚ) →
      truncToInt (roundDouble ((d.length : ℚ) / N)) = ⌊(d.length : ℚ) / N⌋) ∧
    (truncToInt (roundDouble ((([10, 8, 6, 4, 2] : List ℚ).length : ℚ) / 10)) = 0 ∧
      ([10, 8, 6, 4, 2] : List ℚ)[0]? = some 10 ∧
      CalculateTPR 10 [10, 8, 6, 4, 2] [11, 9, 5]
        = some (6004799503160661 / 18014398509481984) ∧
      roundDouble (1 / 3) = 6004799503160661 / 18014398509481984) := by
  have hN0 : N ≠ 0 := ne_of_gt (lt_trans zero_lt_one hN)
  have hpos : 0 < d.length := List.length_pos.mpr hd
  have hspos : 0 < s.length := List.length_pos.mpr hs
  have hd53 : d.length < 2 ^ 53 := lt_trans hdlen (by norm_num)
  have hs53 : s.length < 2 ^ 53 := lt_trans hslen (by norm_num)
  obtain ⟨hidx0, hidxlt⟩ := borderIndex_spec N d.length hpos hd53 hNd hN
  refine ⟨?_, ?_, by decide!, rfl, by decide!, by decide!⟩
  · obtain ⟨hperm, hsorted⟩ := sortedDescending d
    have hlen : ((d.insertionSort (fun a b => a ≤ b)).reverse).length = d.length :=
      hperm.length_eq
    have hlt2 : (truncToInt (roundDouble ((d.length : ℚ) / N))).toNat
        < ((d.insertionSort (fun a b => a ≤ b)).reverse).length := by
      rw [hlen]
      omega
    refine ⟨(d.insertionSort (fun a b => a ≤ b)).reverse,
      ((d.insertionSort (fun a b => a ≤ b)).reverse)[(truncToInt
        (roundDouble ((d.length : ℚ) / N))).toNat],
      hperm, hsorted, hidx0, List.getElem?_eq_getElem hlt2, ?_⟩
    have hcount := countLoop_spec
      (((d.insertionSort (fun a b => a ≤ b)).reverse)[(truncToInt
        (roundDouble ((d.length : ℚ) / N))).toNat]) s 0 (by omega)
    rw [Nat.cast_zero, Nat.zero_add] at hcount
    have hs0 : (s.length : ℚ) ≠ 0 := by exact_mod_cast (ne_of_gt hspos)
    unfold CalculateTPR
    simp only [hlen, roundDouble_natCast d.length hd53, roundDouble_natCast s.length hs53,
      divDouble, if_neg hN0, if_neg (not_lt.mpr hidx0), List.getElem?_eq_getElem hlt2, hcount,
      if_neg hs0]
  · intro m hm
    subst hm
    have hm0 : 0 < m := by
      rcases Nat.eq_zero_or_pos m with h0 | h0
      · rw [h0] at hN
        norm_num at hN
      · exact h0
    exact borderIndex_natCast m d.length hm0 hpos (lt_trans hdlen (by norm_num))

/-- C1 (witness): the impostor scores `[10,8,6,4,2]` and genuine scores `[11,9,5]` with the
divider 2; the position is 2, the threshold 6 and the result the double nearest `2/3`. -/
theorem CalculateTPR_spec_witness :
    ([10, 8, 6, 4, 2] : List ℚ) ≠ [] ∧ ([11, 9, 5] : List ℚ) ≠ [] ∧
    ([10, 8, 6, 4, 2] : List ℚ).length < 2 ^ 31 ∧ ([11, 9, 5] : List ℚ).length < 2 ^ 31 ∧
    roundDouble 2 = 2 ∧ (1 : ℚ) < 2 ∧
    (∃ (l : List ℚ) (t : ℚ), l.Perm ([10, 8, 6, 4, 2] : List ℚ) ∧ l.Sorted (fun a b => a ≥ b) ∧
      0 ≤ truncToInt (roundDouble ((([10, 8, 6, 4, 2] : List ℚ).length : ℚ) / 2)) ∧
      l[(truncToInt (roundDouble ((([10, 8, 6, 4, 2] : List ℚ).length : ℚ) / 2))).toNat]? = some t ∧
      CalculateTPR 2 ([10, 8, 6, 4, 2] : List ℚ) ([11, 9, 5] : List ℚ)
        = some (roundDouble (((([11, 9, 5] : List ℚ).filter (fun g => decide (g > t))).length : ℚ)
            / (([11, 9, 5] : List ℚ).length : ℚ)))) ∧
    (∀ m : Nat, 2 = (m : ℚ) →
      truncToInt (roundDouble ((([10, 8, 6, 4, 2] : List ℚ).length : ℚ) / 2)) = ⌊(([10, 8, 6, 4, 2] : List ℚ).length : ℚ) / 2⌋) ∧
    (truncToInt (roundDouble ((([10, 8, 6, 4, 2] : List ℚ).length : ℚ) / 10)) = 0 ∧
      ([10, 8, 6, 4, 2] : List ℚ)[0]? = some 10 ∧
      CalculateTPR 10 [10, 8, 6, 4, 2] [11, 9, 5]
        = some (6004799503160661 / 18014398509481984) ∧
      roundDouble (1 / 3) = 6004799503160661 / 18014398509481984) :=
  ⟨by simp, by simp, by decide, by decide, by decide!, by norm_num,
    CalculateTPR_spec 2 [10, 8, 6, 4, 2] [11, 9, 5] (by simp) (by simp) (by decide) (by decide)
      (by decide!) (by norm_num)⟩

end fatest
end FRVT_11
